import Mathlib

/-!
Shallow embedding of the spreadsheet-backed voicebot backend
(`backend/main.py`).

A table is a list of rows with row 1 the header; a cell is either a string
or a number (the sheet client returns typed values for numeric cells).
Each HTTP handler is modelled as a function from the table state and the
request data to an HTTP outcome together with the resulting table state.
Transient backend failures of a write are modelled by a fault script
`fault : Nat → Bool` saying which attempt raises an `APIError`; times
(`datetime.now().isoformat()`) and fresh UUIDs are passed in as string
parameters.  The external phone-parsing library is abstracted as a
function `parse : String → PhoneParse`.
-/

inductive Cell where
  | str (s : String)
  | num (q : Rat)
deriving DecidableEq

abbrev Row := List Cell

abbrev Table := List Row

def strs (l : List String) : Row := l.map Cell.str

/-- The `SHEET_COLUMNS` dict of the source. -/
def SHEET_COLUMNS : List (String × List String) :=
  [("Menu Items", ["id", "name", "price", "description", "category", "created_at"]),
   ("FAQs", ["id", "question", "answer", "created_at"]),
   ("Orders", ["id", "timestamp", "phone", "name", "items", "total", "special_instructions", "status"]),
   ("Reservations", ["id", "timestamp", "phone", "name", "date", "time", "party_size", "special_requests", "status"]),
   ("Call Logs", ["id", "timestamp", "phone", "duration", "status", "intent", "transcription", "notes"])]

def menuItemsColumns : List String :=
  ["id", "name", "price", "description", "category", "created_at"]

def faqsColumns : List String := ["id", "question", "answer", "created_at"]

def ordersColumns : List String :=
  ["id", "timestamp", "phone", "name", "items", "total", "special_instructions", "status"]

def reservationsColumns : List String :=
  ["id", "timestamp", "phone", "name", "date", "time", "party_size", "special_requests", "status"]

def callLogsColumns : List String :=
  ["id", "timestamp", "phone", "duration", "status", "intent", "transcription", "notes"]

/-- The Python exceptions that occur in the handlers. -/
inductive PyErr where
  | httpExc (status : Nat) (detail : String)
  | valueErr (msg : String)
  | indexErr
  | apiErr
  | keyErr (k : String)
deriving DecidableEq

/-- Python `str(e)`.  The exact library rendering of an exception is
immaterial to every claim (claims only look at status codes), so a simple
rendering is used. -/
def strErr : PyErr → String
  | .httpExc s d => toString s ++ ": " ++ d
  | .valueErr m => m
  | .indexErr => "list index out of range"
  | .apiErr => "APIError"
  | .keyErr k => "KeyError: " ++ k

/-- An HTTP response as seen by the client: a success payload or a status
code with an error detail. -/
inductive HResp (α : Type) where
  | ok (a : α)
  | err (status : Nat) (detail : String)
deriving DecidableEq

def noFault : Nat → Bool := fun _ => false

/-- Loop body of `safe_append_row`: `for attempt in range(3)` with a
`sleep(5)` between failed attempts.  Returns the new table and the total
seconds slept; the Python guard `attempt < retries - 1` is `rest ≠ []`. -/
def append_loop (fault : Nat → Bool) (t : Table) (row : Row) :
    List Nat → Nat → Except PyErr (Table × Nat)
  | [], _ => .error .apiErr
  | a :: rest, slept =>
    if fault a then
      match rest with
      | [] => .error .apiErr
      | _ :: _ => append_loop fault t row rest (slept + 5)
    else .ok (t ++ [row], slept)

/-- `safe_append_row(ws, row)` from the source: 3 total attempts. -/
def safe_append_row (fault : Nat → Bool) (t : Table) (row : Row) :
    Except PyErr (Table × Nat) :=
  append_loop fault t row [0, 1, 2] 0

/-- A bare `ws.append_row(row)` call with no retry wrapper. -/
def append_row (fault : Nat → Bool) (t : Table) (row : Row) : Except PyErr Table :=
  if fault 0 then .error .apiErr else .ok (t ++ [row])

/-- `ws.row_values(1)`: the header row (empty for an empty worksheet). -/
def row_values1 (t : Table) : Row := t.headD []

/-- One iteration of `ensure_sheets_exist` for a single worksheet:
`existing = none` is the worksheet-missing branch (`add_worksheet` plus
header append); otherwise the header is compared with the expected columns
and, on drift, the sheet is cleared and the header rewritten.  The
formatting and freezing calls have no effect on cell data and are not
modelled. -/
def ensure_table (fault : Nat → Bool) (existing : Option Table)
    (headers : List String) : Except PyErr Table :=
  match existing with
  | none =>
    match safe_append_row fault [] (strs headers) with
    | .ok (t2, _) => .ok t2
    | .error e => .error e
  | some t =>
    if row_values1 t = strs headers then .ok t
    else
      match safe_append_row fault [] (strs headers) with
      | .ok (t2, _) => .ok t2
      | .error e => .error e

/-- The row scan `for idx, row in enumerate(all_values[1:], start=2)` with
the unguarded access `row[id_col]`, which raises `IndexError` on a row
shorter than the id column.  The returned index is 0-based into the data
rows. -/
def scan_unguarded (id_col : Nat) (target : String) : List Row → Except PyErr (Option Nat)
  | [] => .ok none
  | r :: rs =>
    match r.get? id_col with
    | none => .error .indexErr
    | some c =>
      if c = Cell.str target then .ok (some 0)
      else
        match scan_unguarded id_col target rs with
        | .ok (some i) => .ok (some (i + 1))
        | other => other

/-- The row scan with the bounds guard `len(row) > id_col and
row[id_col] == target`; short rows are skipped. -/
def scan_guarded (id_col : Nat) (target : String) : List Row → Option Nat
  | [] => none
  | r :: rs =>
    match r.get? id_col with
    | none => (scan_guarded id_col target rs).map (· + 1)
    | some c =>
      if c = Cell.str target then some 0
      else (scan_guarded id_col target rs).map (· + 1)

/-- `ws.update("A{idx}:F{idx}", [new])`: overwrite the first `new.length`
cells of the row, keeping any cells beyond the written range. -/
def range_update (old new : Row) : Row := new ++ old.drop new.length

/-- Outcome of the external `phonenumbers` library on one input string:
`phonenumbers.parse` raising `NumberParseException` is `unparsable`,
`is_valid_number` returning false is `invalid`, and otherwise `valid e`
carries the `PhoneNumberFormat.E164` rendering of the number. -/
inductive PhoneParse where
  | unparsable
  | invalid
  | valid (e164 : String)
deriving DecidableEq

/-- An ASCII whitespace character as stripped by Python `str.strip()`. -/
def isPySpace (c : Char) : Bool :=
  c = ' ' || c = '\t' || c = '\n' || c = '\r' || c = Char.ofNat 11 || c = Char.ofNat 12

/-- Python `str.strip()` (no arguments): drop leading and trailing
whitespace. -/
def pyStrip (s : String) : String :=
  String.mk (((s.data.dropWhile isPySpace).reverse.dropWhile isPySpace).reverse)

/-- The `normalize_phone` validator shared by `Order` and `Reservation`. -/
def normalize_phone (parse : String → PhoneParse) (v : String) : Except PyErr String :=
  match parse (pyStrip v) with
  | .valid e => .ok e
  | .invalid => .error (.valueErr "Invalid phone number")
  | .unparsable => .error (.valueErr "Invalid phone number format")

/-- A validated `MenuItem` body (the pydantic model has no `id` field, so a
caller can never supply one). -/
structure MenuItem where
  name : String
  price : Rat
  description : String
  category : String
deriving DecidableEq

/-- A validated `FAQ` body. -/
structure FAQ where
  question : String
  answer : String
deriving DecidableEq

/-- A validated `Order` body (no `id` field). -/
structure Order where
  phone : String
  name : String
  items : List String
  total : Rat
  special_instructions : String
  status : String
deriving DecidableEq

/-- A validated `Reservation` body (no `id` field). -/
structure Reservation where
  phone : String
  name : String
  date : String
  time : String
  party_size : Int
  special_requests : String
  status : String
deriving DecidableEq

/-- Pydantic construction of `Order(**data)`: the `phone` validator runs
before the `items` validator (field order), absent optional fields take
their defaults. -/
def mkOrder (parse : String → PhoneParse) (phone : String) (name : Option String)
    (items : List String) (total : Rat) (special_instructions status : Option String) :
    Except PyErr Order :=
  match normalize_phone parse phone with
  | .error e => .error e
  | .ok p =>
    if items = [] then .error (.valueErr "Order must contain at least one item")
    else
      .ok { phone := p, name := name.getD "Unknown", items := items, total := total,
            special_instructions := special_instructions.getD "",
            status := status.getD "New" }

/-- Pydantic construction of `Reservation(**data)`: the only validators are
`normalize_phone` on `phone` and `party_size_positive` (`party_size > 0`);
no date, time or upper party-size bound is checked by the model itself. -/
def mkReservation (parse : String → PhoneParse) (phone : String) (name : Option String)
    (date time : String) (party_size : Int) (special_requests status : Option String) :
    Except PyErr Reservation :=
  match normalize_phone parse phone with
  | .error e => .error e
  | .ok p =>
    if party_size ≤ 0 then .error (.valueErr "Party size must be greater than 0")
    else
      .ok { phone := p, name := name.getD "Unknown", date := date, time := time,
            party_size := party_size, special_requests := special_requests.getD "",
            status := status.getD "New" }

def natOfDigits (ds : List Char) : Nat :=
  ds.foldl (fun acc c => acc * 10 + (c.toNat - 48)) 0

/-- `str.split(sep)` for a one-character separator. -/
def splitOnChar (sep : Char) : List Char → List (List Char)
  | [] => [[]]
  | c :: rest =>
    let r := splitOnChar sep rest
    if c = sep then [] :: r
    else
      match r with
      | [] => [[c]]
      | g :: gs => (c :: g) :: gs

/-- A 1-or-2-digit numeric field of CPython `_strptime` (the `%m`, `%d`,
`%H`, `%M` regex pieces): all digits, one or two of them, value within the
given bounds.  Zero padding is NOT required by `strptime`. -/
def field_ok (cs : List Char) (lo hi : Nat) : Bool :=
  !cs.isEmpty && cs.all Char.isDigit && decide (cs.length ≤ 2)
    && decide (lo ≤ natOfDigits cs) && decide (natOfDigits cs ≤ hi)

def leap_year (y : Nat) : Bool :=
  (y % 4 = 0 && !(y % 100 = 0)) || y % 400 = 0

def days_in_month (y m : Nat) : Nat :=
  if m = 2 then (if leap_year y then 29 else 28)
  else if m = 4 ∨ m = 6 ∨ m = 9 ∨ m = 11 then 30
  else 31

/-- `datetime.strptime(s, "%Y-%m-%d")` succeeds: a 4-digit year of at least
1, a 1-2 digit month in 1..12, a 1-2 digit day in 1..31 that exists in the
given month and year, and nothing else in the string. -/
def parse_date (s : String) : Bool :=
  match splitOnChar '-' s.data with
  | [ys, ms, ds] =>
    decide (ys.length = 4) && ys.all Char.isDigit && decide (1 ≤ natOfDigits ys)
      && field_ok ms 1 12 && field_ok ds 1 31
      && decide (natOfDigits ds ≤ days_in_month (natOfDigits ys) (natOfDigits ms))
  | _ => false

/-- `datetime.strptime(s, "%H:%M")` succeeds: a 1-2 digit hour in 0..23, a
1-2 digit minute in 0..59, and nothing else in the string. -/
def parse_time (s : String) : Bool :=
  match splitOnChar ':' s.data with
  | [hs, ms] => field_ok hs 0 23 && field_ok ms 0 59
  | _ => false

/-- A parsed JSON value, as produced by `json.loads`. -/
inductive Json where
  | null
  | bool (b : Bool)
  | num (q : Rat)
  | str (s : String)
  | arr (xs : List Json)
  | obj (kvs : List (String × Json))

/-- The whitespace characters skipped by the `json` module. -/
def isWsChar (c : Char) : Bool :=
  c = ' ' || c = '\t' || c = '\n' || c = '\r'

def skipWs : List Char → List Char
  | [] => []
  | c :: rest => if isWsChar c then skipWs rest else c :: rest

def hexVal (c : Char) : Option Nat :=
  if '0' ≤ c ∧ c ≤ '9' then some (c.toNat - 48)
  else if 'a' ≤ c ∧ c ≤ 'f' then some (c.toNat - 87)
  else if 'A' ≤ c ∧ c ≤ 'F' then some (c.toNat - 55)
  else none

def hex4 (a b c d : Char) : Option Nat :=
  match hexVal a, hexVal b, hexVal c, hexVal d with
  | some x, some y, some z, some w => some (((x * 16 + y) * 16 + z) * 16 + w)
  | _, _, _, _ => none

def escChar (e : Char) : Option Char :=
  if e = '"' then some '"'
  else if e = '\\' then some '\\'
  else if e = '/' then some '/'
  else if e = 'b' then some (Char.ofNat 8)
  else if e = 'f' then some (Char.ofNat 12)
  else if e = 'n' then some '\n'
  else if e = 'r' then some '\r'
  else if e = 't' then some '\t'
  else none

/-- JSON string-literal body scanner (after the opening quote): returns the
decoded characters and the input after the closing quote.  Unescaped
control characters are rejected as by the strict `json` decoder; the
pairing of `\uXXXX` surrogate escapes is not modelled (no claim touches
it). -/
def pStrBody : List Char → Option (List Char × List Char)
  | [] => none
  | c :: rest =>
    if c = '"' then some ([], rest)
    else if c = '\\' then
      match rest with
      | [] => none
      | e :: rest2 =>
        if e = 'u' then
          match rest2 with
          | a :: b :: c2 :: d :: rest3 =>
            match hex4 a b c2 d with
            | none => none
            | some n =>
              match pStrBody rest3 with
              | none => none
              | some (body, rem) => some (Char.ofNat n :: body, rem)
          | _ => none
        else
          match escChar e with
          | none => none
          | some ec =>
            match pStrBody rest2 with
            | none => none
            | some (body, rem) => some (ec :: body, rem)
    else if c.toNat < 32 then none
    else
      match pStrBody rest with
      | none => none
      | some (body, rem) => some (c :: body, rem)

def span_digits : List Char → (List Char × List Char)
  | [] => ([], [])
  | c :: rest =>
    if c.isDigit then
      let (ds, r) := span_digits rest
      (c :: ds, r)
    else ([], c :: rest)

/-- The integer part of a JSON number: `0` or a nonzero digit followed by
digits (leading zeros are rejected, as by the `json` module). -/
def pIntPart : List Char → Option (Nat × List Char)
  | [] => none
  | c :: rest =>
    if c = '0' then some (0, rest)
    else if c.isDigit then
      let (ds, r) := span_digits rest
      some (natOfDigits (c :: ds), r)
    else none

/-- A JSON number per the `json` module regex
`(-?(?:0|[1-9]\d*))(\.\d+)?([eE][-+]?\d+)?`: the fraction and exponent are
consumed only when complete, as the regex match is the longest valid
one. -/
def pNum (cs : List Char) : Option (Rat × List Char) :=
  let (neg, cs1) := match cs with
    | '-' :: r => (true, r)
    | _ => (false, cs)
  match pIntPart cs1 with
  | none => none
  | some (ip, cs2) =>
    let (q1, cs3) : Rat × List Char :=
      match cs2 with
      | '.' :: r =>
        match span_digits r with
        | ([], _) => ((ip : Rat), cs2)
        | (ds, r2) => ((ip : Rat) + (natOfDigits ds : Rat) / ((10 : Rat) ^ ds.length), r2)
      | _ => ((ip : Rat), cs2)
    let (q2, cs4) : Rat × List Char :=
      match cs3 with
      | e :: r =>
        if e = 'e' ∨ e = 'E' then
          match r with
          | '+' :: r2 =>
            (match span_digits r2 with
             | ([], _) => (q1, cs3)
             | (ds, r3) => (q1 * (10 : Rat) ^ natOfDigits ds, r3))
          | '-' :: r2 =>
            (match span_digits r2 with
             | ([], _) => (q1, cs3)
             | (ds, r3) => (q1 / (10 : Rat) ^ natOfDigits ds, r3))
          | _ =>
            (match span_digits r with
             | ([], _) => (q1, cs3)
             | (ds, r3) => (q1 * (10 : Rat) ^ natOfDigits ds, r3))
        else (q1, cs3)
      | [] => (q1, cs3)
    some (if neg then -q2 else q2, cs4)

/-- A JSON string value (after its opening quote). -/
def pStrVal (cs : List Char) : Option (Json × List Char) :=
  match pStrBody cs with
  | some (b, r) => some (.str (String.mk b), r)
  | none => none

/-- The literal `true` after its leading `t`. -/
def pTrue : List Char → Option (Json × List Char)
  | 'r' :: 'u' :: 'e' :: r => some (.bool true, r)
  | _ => none

/-- The literal `false` after its leading `f`. -/
def pFalse : List Char → Option (Json × List Char)
  | 'a' :: 'l' :: 's' :: 'e' :: r => some (.bool false, r)
  | _ => none

/-- The literal `null` after its leading `n`. -/
def pNull : List Char → Option (Json × List Char)
  | 'u' :: 'l' :: 'l' :: r => some (.null, r)
  | _ => none

/-- A JSON number value. -/
def pNumVal (cs : List Char) : Option (Json × List Char) :=
  match pNum cs with
  | some (q, r) => some (.num q, r)
  | none => none

mutual

/-- Parse one JSON value; `cs` starts at the value (no leading
whitespace, which the container rules have already skipped).  The fuel is
for termination only: every recursive call consumes input, so
`length + 1` fuel suffices for any parseable input. -/
def pValue : Nat → List Char → Option (Json × List Char)
  | 0, _ => none
  | Nat.succ fuel, cs =>
    match cs with
    | [] => none
    | c :: rest =>
      if c = '"' then pStrVal rest
      else if c = '[' then pArrBody fuel (skipWs rest)
      else if c = '{' then pObjBody fuel (skipWs rest)
      else if c = 't' then pTrue rest
      else if c = 'f' then pFalse rest
      else if c = 'n' then pNull rest
      else pNumVal (c :: rest)

/-- Array body after `[` and whitespace. -/
def pArrBody : Nat → List Char → Option (Json × List Char)
  | 0, _ => none
  | Nat.succ fuel, cs =>
    match cs with
    | ']' :: r => some (.arr [], r)
    | _ =>
      match pElems fuel cs with
      | some (vs, r) => some (.arr vs, r)
      | none => none

/-- One-or-more comma-separated elements followed by `]`. -/
def pElems : Nat → List Char → Option (List Json × List Char)
  | 0, _ => none
  | Nat.succ fuel, cs =>
    match pValue fuel cs with
    | none => none
    | some (v, r) =>
      match skipWs r with
      | ']' :: r2 => some ([v], r2)
      | ',' :: r2 =>
        match pElems fuel (skipWs r2) with
        | some (vs, r3) => some (v :: vs, r3)
        | none => none
      | _ => none

/-- Object body after `{` and whitespace. -/
def pObjBody : Nat → List Char → Option (Json × List Char)
  | 0, _ => none
  | Nat.succ fuel, cs =>
    match cs with
    | '}' :: r => some (.obj [], r)
    | _ =>
      match pMembers fuel cs with
      | some (kvs, r) => some (.obj kvs, r)
      | none => none

/-- One-or-more `"key": value` members followed by `}`. -/
def pMembers : Nat → List Char → Option (List (String × Json) × List Char)
  | 0, _ => none
  | Nat.succ fuel, cs =>
    match cs with
    | '"' :: rest =>
      (match pStrBody rest with
       | none => none
       | some (k, r) =>
         match skipWs r with
         | ':' :: r2 =>
           (match pValue fuel (skipWs r2) with
            | none => none
            | some (v, r3) =>
              match skipWs r3 with
              | '}' :: r4 => some ([(String.mk k, v)], r4)
              | ',' :: r4 =>
                (match pMembers fuel (skipWs r4) with
                 | some (kvs, r5) => some ((String.mk k, v) :: kvs, r5)
                 | none => none)
              | _ => none)
         | _ => none)
    | _ => none

end

/-- `json.loads`: skip leading whitespace, parse one value, allow only
trailing whitespace. -/
def jsonParse (s : String) : Option Json :=
  match pValue (s.length + 1) (skipWs s.data) with
  | some (v, r) => if skipWs r = [] then some v else none
  | none => none

def hexDigit (n : Nat) : Char :=
  if n < 10 then Char.ofNat (48 + n) else Char.ofNat (87 + n)

def uEscape (c : Char) : List Char :=
  ['\\', 'u', hexDigit (c.toNat / 4096 % 16), hexDigit (c.toNat / 256 % 16),
   hexDigit (c.toNat / 16 % 16), hexDigit (c.toNat % 16)]

/-- `json.dumps` escaping of one character with the default
`ensure_ascii=True`: everything outside printable ASCII is `\u`-escaped
(code points above 0xFFFF use surrogate pairs in Python; that detail is
not modelled and no claim touches it). -/
def escapeChar (c : Char) : List Char :=
  if c = '"' then ['\\', '"']
  else if c = '\\' then ['\\', '\\']
  else if c.toNat < 32 ∨ 127 ≤ c.toNat then uEscape c
  else [c]

/-- A character that `json.dumps` writes verbatim. -/
def SimpleChar (c : Char) : Bool :=
  decide (32 ≤ c.toNat) && decide (c.toNat ≤ 126) && !(c = '"') && !(c = '\\')

def SimpleStr (s : String) : Bool := s.data.all SimpleChar

/-- `json.dumps` of one string. -/
def dumpStrChars (s : String) : List Char :=
  '"' :: (s.data.map escapeChar).flatten ++ ['"']

/-- The element list of `json.dumps` of a list of strings; the default
item separator is a comma followed by a space. -/
def elemsChars : List String → List Char
  | [] => []
  | [s] => dumpStrChars s
  | s :: rest => dumpStrChars s ++ ',' :: ' ' :: elemsChars rest

/-- `json.dumps(items)` for a list of strings. -/
def jsonDumps (l : List String) : String :=
  String.mk ('[' :: elemsChars l ++ [']'])

/-- Modelled from the spec: a string in E.164 normalized form, that is a
`+` followed by 2 to 15 digits. -/
def isE164 (s : String) : Bool :=
  match s.data with
  | '+' :: ds => ds.all Char.isDigit && decide (2 ≤ ds.length) && decide (ds.length ≤ 15)
  | _ => false

/-- Follows the claim's words: a date string literally of the shape
`YYYY-MM-DD`, four digits, a dash, two digits, a dash, two digits.  To be
compared with `parse_date`, the check the source actually performs. -/
def specMatchesYYYYMMDD (s : String) : Bool :=
  match s.data with
  | [y1, y2, y3, y4, d1, m1, m2, d2, dd1, dd2] =>
    [y1, y2, y3, y4, m1, m2, dd1, dd2].all Char.isDigit && d1 = '-' && d2 = '-'
  | _ => false

/-- Error mapping of the `except` ladder shared by `handle_order` and
`handle_reservation`: `ValueError` (including pydantic validation
failures, whose pydantic-formatted message text is simplified to the
validator's own message) maps to 400, `KeyError` to 400, anything else to
500 with the `Internal server error:` detail text. -/
def toolCallErr {α : Type} (e : PyErr) : HResp α :=
  match e with
  | .valueErr m => .err 400 m
  | .keyErr k => .err 400 ("Missing required field: " ++ k)
  | e => .err 500 ("Internal server error: " ++ strErr e)

/-- `POST /api/menu-items`.  The fresh UUID and timestamp are passed in;
the success payload is the new id (the response message text is elided). -/
def add_menu_item (fault : Nat → Bool) (t : Table) (item : MenuItem)
    (new_id now : String) : HResp String × Table :=
  let row : Row := [.str new_id, .str item.name, .num item.price,
                    .str item.description, .str item.category, .str now]
  match safe_append_row fault t row with
  | .ok (t2, _) => (.ok new_id, t2)
  | .error e => (.err 500 (strErr e), t)

/-- A data row is "empty" for the FAQ pruning loop when no cell has
non-whitespace content (`get_all_values` yields strings, so numeric cells
never count as blank). -/
def rowAllBlank (r : Row) : Bool :=
  r.all fun c =>
    match c with
    | .str s => pyStrip s = ""
    | .num _ => false

/-- The pruning loop of `add_faq`: deleting the blank data rows in
descending index order keeps exactly the non-blank ones in order. -/
def prune_blank (t : Table) : Table :=
  match t with
  | [] => []
  | hdr :: data => hdr :: data.filter fun r => !rowAllBlank r

/-- `POST /api/faqs`: prune blank rows, then append.  The individual
`delete_rows` calls of the pruning loop are modelled as always succeeding
(their transient failure is not touched by any claim). -/
def add_faq (fault : Nat → Bool) (t : Table) (f : FAQ) (new_id now : String) :
    HResp String × Table :=
  let t1 := prune_blank t
  let row : Row := [.str new_id, .str f.question, .str f.answer, .str now]
  match safe_append_row fault t1 row with
  | .ok (t2, _) => (.ok new_id, t2)
  | .error e => (.err 500 (strErr e), t1)

/-- `PUT /api/menu-items/{item_id}`.  The whole body runs inside
`try ... except Exception`, so every raised exception — including the
handler's own `HTTPException(404)` — is re-raised as a 500 whose detail is
`str(e)`. -/
def update_menu_item (fault : Nat → Bool) (t : Table) (item_id : String)
    (item : MenuItem) (now : String) : HResp String × Table :=
  match t with
  | [] => (.err 500 (strErr .indexErr), t)
  | hdr :: data =>
    match hdr.findIdx? (fun c => decide (c = Cell.str "id")) with
    | none => (.err 500 (strErr (.valueErr "id is not in list")), t)
    | some id_col =>
      match scan_unguarded id_col item_id data with
      | .error e => (.err 500 (strErr e), t)
      | .ok none => (.err 500 (strErr (.httpExc 404 "Menu item not found")), t)
      | .ok (some i) =>
        let updated_row : Row := [.str item_id, .str item.name, .num item.price,
                                  .str item.description, .str item.category, .str now]
        if fault 0 then (.err 500 (strErr .apiErr), t)
        else (.ok item_id, hdr :: data.set i (range_update (data.getD i []) updated_row))

/-- `DELETE /api/menu-items/{item_id}`: header guard, guarded scan, and
the same exception swallowing as the other handlers. -/
def delete_menu_item (fault : Nat → Bool) (t : Table) (item_id : String) :
    HResp String × Table :=
  match t with
  | [] => (.err 500 (strErr .indexErr), t)
  | hdr :: data =>
    match hdr.findIdx? (fun c => decide (c = Cell.str "id")) with
    | none => (.err 500 (strErr (.httpExc 500 "Worksheet header missing id")), t)
    | some id_col =>
      match scan_guarded id_col item_id data with
      | none => (.err 500 (strErr (.httpExc 404 "Item not found")), t)
      | some i =>
        if fault 0 then (.err 500 (strErr .apiErr), t)
        else (.ok item_id, hdr :: data.eraseIdx i)

/-- `PUT /api/faqs/{faq_id}`: unguarded scan, 4-cell row, range `A:D`. -/
def update_faq (fault : Nat → Bool) (t : Table) (faq_id : String) (f : FAQ)
    (now : String) : HResp String × Table :=
  match t with
  | [] => (.err 500 (strErr .indexErr), t)
  | hdr :: data =>
    match hdr.findIdx? (fun c => decide (c = Cell.str "id")) with
    | none => (.err 500 (strErr (.valueErr "id is not in list")), t)
    | some id_col =>
      match scan_unguarded id_col faq_id data with
      | .error e => (.err 500 (strErr e), t)
      | .ok none => (.err 500 (strErr (.httpExc 404 "FAQ not found")), t)
      | .ok (some i) =>
        let updated_row : Row := [.str faq_id, .str f.question, .str f.answer, .str now]
        if fault 0 then (.err 500 (strErr .apiErr), t)
        else (.ok faq_id, hdr :: data.set i (range_update (data.getD i []) updated_row))

/-- `DELETE /api/faqs/{faq_id}`: the scan guard here is
`if row and row[0] == faq_id`, i.e. a guarded scan on column 0 regardless
of where the header holds `id`. -/
def delete_faq (fault : Nat → Bool) (t : Table) (faq_id : String) :
    HResp String × Table :=
  match scan_guarded 0 faq_id t.tail with
  | none => (.err 500 (strErr (.httpExc 404 "FAQ not found")), t)
  | some i =>
    if fault 0 then (.err 500 (strErr .apiErr), t)
    else (.ok faq_id, t.eraseIdx (i + 1))

/-- `POST /api/order-complete`, from `Order(**order_data)` onward (the
`message.toolCalls` unwrapping of the payload is upstream of everything
the claims touch).  `order.special_instructions or ""` is the identity on
the modelled string field.  The success payload is the new id; the echoed
order dict is elided. -/
def handle_order (parse : String → PhoneParse) (fault : Nat → Bool) (t : Table)
    (order_id now : String) (phone : String) (name : Option String)
    (items : List String) (total : Rat) (special_instructions status : Option String) :
    HResp String × Table :=
  match mkOrder parse phone name items total special_instructions status with
  | .error e => (toolCallErr e, t)
  | .ok o =>
    if o.total < 0 then (toolCallErr (.valueErr "Order total must be greater than 0"), t)
    else
      let row : Row := [.str order_id, .str now, .str o.phone, .str o.name,
                        .str (jsonDumps o.items), .num o.total,
                        .str o.special_instructions, .str o.status]
      match safe_append_row fault t row with
      | .ok (t2, _) => (.ok order_id, t2)
      | .error e => (toolCallErr e, t)

/-- `POST /api/reservation-complete`, from `Reservation(**reservation_data)`
onward.  Note the row the source builds: 8 cells, without the reservation's
`name`, appended with a bare `ws.append_row` (no retry wrapper), and the
status cell hardcoded to `"New"`. -/
def handle_reservation (parse : String → PhoneParse) (fault : Nat → Bool) (t : Table)
    (res_id now : String) (phone : String) (name : Option String) (date time : String)
    (party_size : Int) (special_requests status : Option String) :
    HResp String × Table :=
  match mkReservation parse phone name date time party_size special_requests status with
  | .error e => (toolCallErr e, t)
  | .ok r =>
    if parse_date r.date = false then
      (toolCallErr (.valueErr "Invalid date format. Use YYYY-MM-DD"), t)
    else if parse_time r.time = false then
      (toolCallErr (.valueErr "Invalid time format. Use HH:MM (24h)"), t)
    else if r.party_size ≤ 0 ∨ r.party_size > 20 then
      (toolCallErr (.valueErr "Party size must be between 1 and 20"), t)
    else
      let row : Row := [.str res_id, .str now, .str r.phone, .str r.date, .str r.time,
                        .num (r.party_size : Rat),
                        .str (if r.special_requests = "" then "None" else r.special_requests),
                        .str "New"]
      match append_row fault t row with
      | .ok t2 => (.ok res_id, t2)
      | .error e => (toolCallErr e, t)

/-- `PUT /api/orders/{order_id}`: unguarded scan, 8-cell row, range `A:H`;
the `timestamp` cell is re-stamped with the update time. -/
def update_order (fault : Nat → Bool) (t : Table) (order_id : String) (o : Order)
    (now : String) : HResp String × Table :=
  match t with
  | [] => (.err 500 (strErr .indexErr), t)
  | hdr :: data =>
    match hdr.findIdx? (fun c => decide (c = Cell.str "id")) with
    | none => (.err 500 (strErr (.valueErr "id is not in list")), t)
    | some id_col =>
      match scan_unguarded id_col order_id data with
      | .error e => (.err 500 (strErr e), t)
      | .ok none => (.err 500 (strErr (.httpExc 404 "Order not found")), t)
      | .ok (some i) =>
        let updated_row : Row := [.str order_id, .str now, .str o.phone, .str o.name,
                                  .str (jsonDumps o.items), .num o.total,
                                  .str o.special_instructions, .str o.status]
        if fault 0 then (.err 500 (strErr .apiErr), t)
        else (.ok order_id, hdr :: data.set i (range_update (data.getD i []) updated_row))

/-- `DELETE /api/orders/{order_id}`: unguarded scan, no header guard. -/
def delete_order (fault : Nat → Bool) (t : Table) (order_id : String) :
    HResp String × Table :=
  match t with
  | [] => (.err 500 (strErr .indexErr), t)
  | hdr :: data =>
    match hdr.findIdx? (fun c => decide (c = Cell.str "id")) with
    | none => (.err 500 (strErr (.valueErr "id is not in list")), t)
    | some id_col =>
      match scan_unguarded id_col order_id data with
      | .error e => (.err 500 (strErr e), t)
      | .ok none => (.err 500 (strErr (.httpExc 404 "Order not found")), t)
      | .ok (some i) =>
        if fault 0 then (.err 500 (strErr .apiErr), t)
        else (.ok order_id, hdr :: data.eraseIdx i)

/-- `PUT /api/reservations/{res_id}` given an already-validated body:
unguarded scan, 9-cell row, range `A:I`.  No date, time or party-size
upper-bound check appears anywhere in this handler. -/
def update_reservation (fault : Nat → Bool) (t : Table) (res_id : String)
    (r : Reservation) (now : String) : HResp String × Table :=
  match t with
  | [] => (.err 500 (strErr .indexErr), t)
  | hdr :: data =>
    match hdr.findIdx? (fun c => decide (c = Cell.str "id")) with
    | none => (.err 500 (strErr (.valueErr "id is not in list")), t)
    | some id_col =>
      match scan_unguarded id_col res_id data with
      | .error e => (.err 500 (strErr e), t)
      | .ok none => (.err 500 (strErr (.httpExc 404 "Reservation not found")), t)
      | .ok (some i) =>
        let updated_row : Row := [.str res_id, .str now, .str r.phone, .str r.name,
                                  .str r.date, .str r.time, .num (r.party_size : Rat),
                                  .str r.special_requests, .str r.status]
        if fault 0 then (.err 500 (strErr .apiErr), t)
        else (.ok res_id, hdr :: data.set i (range_update (data.getD i []) updated_row))

/-- The `PUT /api/reservations/{res_id}` endpoint as FastAPI runs it: the
request body is validated into a `Reservation` first (a pydantic failure is
a 422 client-error response produced before the handler body runs), then
the handler executes. -/
def update_reservation_endpoint (parse : String → PhoneParse) (fault : Nat → Bool)
    (t : Table) (res_id : String) (phone : String) (name : Option String)
    (date time : String) (party_size : Int) (special_requests status : Option String)
    (now : String) : HResp String × Table :=
  match mkReservation parse phone name date time party_size special_requests status with
  | .error e => (.err 422 (strErr e), t)
  | .ok r => update_reservation fault t res_id r now

/-- `DELETE /api/reservations/{res_id}`: header guard, guarded scan. -/
def delete_reservation (fault : Nat → Bool) (t : Table) (res_id : String) :
    HResp String × Table :=
  match t with
  | [] => (.err 500 (strErr .indexErr), t)
  | hdr :: data =>
    match hdr.findIdx? (fun c => decide (c = Cell.str "id")) with
    | none => (.err 500 (strErr (.httpExc 500 "Missing id column in Reservations sheet")), t)
    | some id_col =>
      match scan_guarded id_col res_id data with
      | none => (.err 500 (strErr (.httpExc 404 "Reservation not found")), t)
      | some i =>
        if fault 0 then (.err 500 (strErr .apiErr), t)
        else (.ok res_id, hdr :: data.eraseIdx i)

/-- `create_call_log(phone, call_sid)`: the phone cell is the inbound
`From` form value, stored verbatim with no parsing, validation or
normalization; on any exception the function logs and returns `None`. -/
def create_call_log (fault : Nat → Bool) (t : Table) (call_id now phone : String) :
    Option String × Table :=
  let row : Row := [.str call_id, .str now, .str phone, .str "0", .str "in-progress",
                    .str "", .str "", .str ""]
  match safe_append_row fault t row with
  | .ok (t2, _) => (some call_id, t2)
  | .error _ => (none, t)

/-- The key of a header cell.  Headers written by this program are always
strings; a numeric header cell is keyed by an empty placeholder (no claim
touches that corner). -/
def cellKey (c : Cell) : String :=
  match c with
  | .str s => s
  | .num _ => ""

/-- `ws.get_all_records()`: each data row becomes a record keyed by the
current header, with missing trailing cells padded by the empty string.
The numeric conversion gspread performs on numeric-looking cells is
implicit in the typed `Cell` values. -/
def get_all_records (t : Table) : List (List (String × Cell)) :=
  match t with
  | [] => []
  | hdr :: data =>
    let keys := hdr.map cellKey
    data.map fun r => keys.zip (r ++ List.replicate (keys.length - r.length) (.str ""))

/-- A Python value held in a record after `get_orders` rewrites it: either
a cell as fetched, or the object produced by `json.loads`. -/
inductive PVal where
  | cell (c : Cell)
  | json (j : Json)

/-- `record.get(k)` on the record dict (keys are unique for any
well-formed header). -/
def lookupKey (k : String) : List (String × Cell) → Option Cell
  | [] => none
  | kv :: rest => if kv.1 = k then some kv.2 else lookupKey k rest

def lookupPV (k : String) : List (String × PVal) → Option PVal
  | [] => none
  | kv :: rest => if kv.1 = k then some kv.2 else lookupPV k rest

def asPVal (rec : List (String × Cell)) : List (String × PVal) :=
  rec.map fun kv => (kv.1, .cell kv.2)

/-- `record[k] = v` on the record dict. -/
def setKey (rec : List (String × PVal)) (k : String) (v : PVal) :
    List (String × PVal) :=
  rec.map fun kv => if kv.1 = k then (kv.1, v) else kv

/-- `record["name"] = record.get("name", "Unknown")`: identity when the
key is present, otherwise the key is added at the end. -/
def setNameDefault (rec : List (String × PVal)) : List (String × PVal) :=
  if rec.any (fun kv => kv.1 = "name") then
    setKey rec "name" ((lookupPV "name" rec).getD (.cell (.str "Unknown")))
  else rec ++ [("name", .cell (.str "Unknown"))]

/-- The per-record loop body of `get_orders`: decode the `items` cell when
it is a non-empty string, treat anything else as `[]`; a
`json.JSONDecodeError` is caught, sets `items = []` and skips the `name`
defaulting line. -/
def transform_order_record (rec : List (String × Cell)) : List (String × PVal) :=
  let base := asPVal rec
  match lookupKey "items" rec with
  | some (.str s) =>
    if s = "" then setNameDefault (setKey base "items" (.json (.arr [])))
    else
      match jsonParse s with
      | some j => setNameDefault (setKey base "items" (.json j))
      | none => setKey base "items" (.json (.arr []))
  | _ => setNameDefault (setKey base "items" (.json (.arr [])))

/-- The header self-heal of `get_orders`/`get_reservations`: `ws.clear()`
followed by a retried append of the expected header. -/
def heal_header (fault : Nat → Bool) (headers : List String) : Except PyErr Table :=
  match safe_append_row fault [] (strs headers) with
  | .ok (t2, _) => .ok t2
  | .error e => .error e

/-- `GET /api/orders`: self-heal and return `[]` on a header mismatch,
return `[]` for a header-only sheet, otherwise return the records with the
`items` cells decoded. -/
def get_orders (fault : Nat → Bool) (t : Table) :
    HResp (List (List (String × PVal))) × Table :=
  match t with
  | [] =>
    (match heal_header fault ordersColumns with
     | .ok t2 => (.ok [], t2)
     | .error e => (.err 500 (strErr e), []))
  | hdr :: data =>
    if hdr ≠ strs ordersColumns then
      (match heal_header fault ordersColumns with
       | .ok t2 => (.ok [], t2)
       | .error e => (.err 500 (strErr e), []))
    else if data = [] then (.ok [], t)
    else (.ok ((get_all_records t).map transform_order_record), t)

/-- A concrete stand-in for the phone library used by the closed
counterexample theorems: it accepts exactly one number. -/
def parseStub : String → PhoneParse :=
  fun s => if s = "+15551234567" then .valid "+15551234567" else .unparsable

/-- A fault script whose first attempt fails and whose later attempts
succeed: the canonical transient backend error. -/
def faultFirst : Nat → Bool := fun n => n == 0


theorem skipWs_cons_not_ws (c : Char) (r : List Char) (h : isWsChar c = false) :
    skipWs (c :: r) = c :: r := by
  simp [skipWs, h]

theorem skipWs_space (r : List Char) : skipWs (' ' :: r) = skipWs r := by
  simp [skipWs, isWsChar]

theorem simpleChar_escape (c : Char) (h : SimpleChar c = true) : escapeChar c = [c] := by
  simp only [SimpleChar, Bool.and_eq_true, decide_eq_true_eq, Bool.not_eq_true',
    decide_eq_false_iff_not] at h
  obtain ⟨⟨⟨h1, h2⟩, h3⟩, h4⟩ := h
  have h5 : ¬(c.toNat < 32 ∨ 127 ≤ c.toNat) := by omega
  simp [escapeChar, h3, h4, h5]

theorem simple_flatten : ∀ (l : List Char), l.all SimpleChar = true →
    (l.map escapeChar).flatten = l
  | [], _ => rfl
  | c :: l, h => by
    simp only [List.all_cons, Bool.and_eq_true] at h
    rw [List.map_cons, List.flatten_cons, simpleChar_escape c h.1, simple_flatten l h.2]
    rfl

theorem pStrBody_simple : ∀ (l rest : List Char), l.all SimpleChar = true →
    pStrBody (l ++ '"' :: rest) = some (l, rest)
  | [], rest, _ => by
    rw [List.nil_append, pStrBody.eq_def]
    simp
  | c :: l, rest, h => by
    simp only [List.all_cons, Bool.and_eq_true] at h
    have hc := h.1
    simp only [SimpleChar, Bool.and_eq_true, decide_eq_true_eq, Bool.not_eq_true',
      decide_eq_false_iff_not] at hc
    obtain ⟨⟨⟨h1, h2⟩, h3⟩, h4⟩ := hc
    have h5 : ¬(c.toNat < 32) := by omega
    rw [List.cons_append, pStrBody.eq_def]
    simp [h3, h4, h5, pStrBody_simple l rest h.2]

theorem pValue_dumpStr (s : String) (hs : SimpleStr s = true) (fuel : Nat)
    (rest : List Char) :
    pValue (fuel + 1) (dumpStrChars s ++ rest) = some (.str s, rest) := by
  obtain ⟨l⟩ := s
  have h2 : (l.map escapeChar).flatten = l := simple_flatten l hs
  have h3 : pStrBody (l ++ '"' :: rest) = some (l, rest) := pStrBody_simple l rest hs
  rw [pValue.eq_def]
  simp [dumpStrChars, h2, pStrVal, h3, List.append_assoc]

theorem elems_head_quote (a : String) (l : List String) :
    ∃ E, elemsChars (a :: l) = '"' :: E := by
  cases l <;> simp [elemsChars, dumpStrChars]

theorem skipWs_elems (a : String) (l : List String) (r : List Char) :
    skipWs (elemsChars (a :: l) ++ r) = elemsChars (a :: l) ++ r := by
  obtain ⟨E, hE⟩ := elems_head_quote a l
  rw [hE]
  exact skipWs_cons_not_ws _ _ (by decide)

theorem elems_length : ∀ (s : String) (l : List String),
    2 * l.length + 2 ≤ (elemsChars (s :: l)).length
  | _, [] => by simp [elemsChars, dumpStrChars]
  | s, a :: l => by
    have ih := elems_length a l
    simp only [elemsChars, dumpStrChars] at *
    simp only [List.length_append, List.length_cons, List.length_map]
    omega

theorem pElems_eq (fuel : Nat) (cs : List Char) :
    pElems (fuel + 1) cs =
      (match pValue fuel cs with
       | none => none
       | some (v, r) =>
         match skipWs r with
         | ']' :: r2 => some ([v], r2)
         | ',' :: r2 =>
           (match pElems fuel (skipWs r2) with
            | some (vs, r3) => some (v :: vs, r3)
            | none => none)
         | _ => none) := by
  rw [pElems.eq_def]

theorem pElems_dumps : ∀ (l : List String) (s : String) (fuel : Nat) (rest : List Char),
    (∀ x ∈ s :: l, SimpleStr x = true) → 2 * l.length + 2 ≤ fuel →
    pElems fuel (elemsChars (s :: l) ++ ']' :: rest) = some ((s :: l).map Json.str, rest) := by
  intro l
  induction l with
  | nil =>
    intro s fuel rest h hf
    obtain ⟨f, rfl⟩ : ∃ f, fuel = (f + 1) + 1 := ⟨fuel - 2, by omega⟩
    have hs : SimpleStr s = true := h s (by simp)
    have h1 : skipWs (']' :: rest) = ']' :: rest := skipWs_cons_not_ws _ _ (by decide)
    simp only [elemsChars]
    rw [pElems_eq, pValue_dumpStr s hs f (']' :: rest)]
    simp [h1]
  | cons a l ih =>
    intro s fuel rest h hf
    obtain ⟨f, rfl⟩ : ∃ f, fuel = (f + 1) + 1 := ⟨fuel - 2, by omega⟩
    have hs : SimpleStr s = true := h s (by simp)
    have hrest : ∀ x ∈ a :: l, SimpleStr x = true := fun x hx => h x (by simp [hx])
    have h1 : skipWs (',' :: ' ' :: (elemsChars (a :: l) ++ ']' :: rest))
        = ',' :: ' ' :: (elemsChars (a :: l) ++ ']' :: rest) :=
      skipWs_cons_not_ws _ _ (by decide)
    have h2 : skipWs (' ' :: (elemsChars (a :: l) ++ ']' :: rest))
        = elemsChars (a :: l) ++ ']' :: rest := by
      rw [skipWs_space, skipWs_elems]
    have h3 := ih a (f + 1) rest hrest (by simp at hf ⊢; omega)
    simp only [elemsChars]
    rw [List.append_assoc, List.cons_append, List.cons_append, pElems_eq,
      pValue_dumpStr s hs f (',' :: ' ' :: (elemsChars (a :: l) ++ ']' :: rest))]
    simp [h1, h2, h3]

theorem pArrBody_eq (fuel : Nat) (cs : List Char) :
    pArrBody (fuel + 1) cs =
      (match cs with
       | ']' :: r => some (.arr [], r)
       | _ =>
         match pElems fuel cs with
         | some (vs, r) => some (.arr vs, r)
         | none => none) := by
  rw [pArrBody.eq_def]

theorem jsonParse_dumps (l : List String) (h : ∀ x ∈ l, SimpleStr x = true) :
    jsonParse (jsonDumps l) = some (.arr (l.map .str)) := by
  cases l with
  | nil => rfl
  | cons s l =>
    have hlen : 2 * l.length + 2 ≤ (elemsChars (s :: l)).length := elems_length s l
    obtain ⟨E, hE⟩ := elems_head_quote s l
    have hskip : skipWs (elemsChars (s :: l) ++ [']'])
        = elemsChars (s :: l) ++ ']' :: [] := skipWs_elems s l [']']
    have harr : pArrBody ((elemsChars (s :: l)).length + 2)
        (elemsChars (s :: l) ++ ']' :: []) = some (.arr ((s :: l).map Json.str), []) := by
      obtain ⟨n, hn⟩ : ∃ n, (elemsChars (s :: l)).length = n + 2 :=
        ⟨(elemsChars (s :: l)).length - 2, by omega⟩
      rw [hn, show n + 2 + 2 = (n + 3) + 1 from rfl, pArrBody_eq]
      have hp := pElems_dumps l s (n + 3) [] h (by omega)
      rw [hE] at hp ⊢
      simp only [List.cons_append] at hp ⊢
      rw [hp]
      rfl
    simp only [jsonParse, jsonDumps]
    have hslen : (String.mk ('[' :: elemsChars (s :: l) ++ [']'])).length
        = (elemsChars (s :: l)).length + 2 := by
      simp [String.length]
    rw [hslen, List.cons_append,
      skipWs_cons_not_ws '[' (elemsChars (s :: l) ++ [']']) (by decide),
      show (elemsChars (s :: l)).length + 2 + 1 = ((elemsChars (s :: l)).length + 2) + 1
        from rfl,
      pValue.eq_def]
    have c1 : ¬('[' : Char) = '"' := by decide
    have c2 : ¬('[' : Char) = '{' := by decide
    simp [c1, c2, hskip, harr, skipWs]

theorem scan_unguarded_cons (k : Nat) (target : String) (r : Row) (rs : List Row) :
    scan_unguarded k target (r :: rs) =
      (match r.get? k with
       | none => .error .indexErr
       | some c =>
         if c = Cell.str target then .ok (some 0)
         else
           match scan_unguarded k target rs with
           | .ok (some i) => .ok (some (i + 1))
           | other => other) := rfl

theorem scan_unguarded_cons_none (k : Nat) (target : String) (r : Row) (rs : List Row)
    (h : r.get? k = none) :
    scan_unguarded k target (r :: rs) = .error .indexErr := by
  rw [scan_unguarded_cons, h]

theorem scan_unguarded_cons_some (k : Nat) (target : String) (r : Row) (rs : List Row)
    (c : Cell) (h : r.get? k = some c) :
    scan_unguarded k target (r :: rs) =
      (if c = Cell.str target then .ok (some 0)
       else
         match scan_unguarded k target rs with
         | .ok (some i) => .ok (some (i + 1))
         | other => other) := by
  rw [scan_unguarded_cons, h]

theorem scan_guarded_cons (k : Nat) (target : String) (r : Row) (rs : List Row) :
    scan_guarded k target (r :: rs) =
      (match r.get? k with
       | none => (scan_guarded k target rs).map (· + 1)
       | some c =>
         if c = Cell.str target then some 0
         else (scan_guarded k target rs).map (· + 1)) := rfl

theorem scan_guarded_cons_none (k : Nat) (target : String) (r : Row) (rs : List Row)
    (h : r.get? k = none) :
    scan_guarded k target (r :: rs) = (scan_guarded k target rs).map (· + 1) := by
  rw [scan_guarded_cons, h]

theorem scan_guarded_cons_some (k : Nat) (target : String) (r : Row) (rs : List Row)
    (c : Cell) (h : r.get? k = some c) :
    scan_guarded k target (r :: rs) =
      (if c = Cell.str target then some 0
       else (scan_guarded k target rs).map (· + 1)) := by
  rw [scan_guarded_cons, h]

theorem scan_unguarded_found : ∀ (data : List Row) (k : Nat) (target : String) (i : Nat),
    scan_unguarded k target data = .ok (some i) →
    ∃ row, data.get? i = some row ∧ row.get? k = some (Cell.str target)
  | [], k, target, i, h => by simp [scan_unguarded] at h
  | r :: rs, k, target, i, h => by
    cases hc : r.get? k with
    | none =>
      rw [scan_unguarded_cons_none k target r rs hc] at h
      exact absurd h (by simp)
    | some c =>
      rw [scan_unguarded_cons_some k target r rs c hc] at h
      by_cases he : c = Cell.str target
      · rw [if_pos he] at h
        simp only [Except.ok.injEq, Option.some.injEq] at h
        subst h
        exact ⟨r, by simp, by rw [hc, he]⟩
      · rw [if_neg he] at h
        cases hs : scan_unguarded k target rs with
        | error e => rw [hs] at h; exact absurd h (by simp)
        | ok o =>
          cases o with
          | none => rw [hs] at h; exact absurd h (by simp)
          | some j =>
            rw [hs] at h
            simp only [Except.ok.injEq, Option.some.injEq] at h
            obtain ⟨row, hrow, hcell⟩ := scan_unguarded_found rs k target j hs
            exact ⟨row, by rw [← h]; simpa using hrow, hcell⟩

theorem scan_unguarded_set : ∀ (data : List Row) (k : Nat) (target : String) (i : Nat)
    (new : Row), scan_unguarded k target data = .ok (some i) →
    new.get? k = some (Cell.str target) →
    scan_unguarded k target (data.set i new) = .ok (some i)
  | [], k, target, i, new, h, _ => by simp [scan_unguarded] at h
  | r :: rs, k, target, i, new, h, hnew => by
    cases hc : r.get? k with
    | none =>
      rw [scan_unguarded_cons_none k target r rs hc] at h
      exact absurd h (by simp)
    | some c =>
      rw [scan_unguarded_cons_some k target r rs c hc] at h
      by_cases he : c = Cell.str target
      · rw [if_pos he] at h
        simp only [Except.ok.injEq, Option.some.injEq] at h
        subst h
        rw [List.set_cons_zero, scan_unguarded_cons_some k target new rs _ hnew,
          if_pos rfl]
      · rw [if_neg he] at h
        cases hs : scan_unguarded k target rs with
        | error e => rw [hs] at h; exact absurd h (by simp)
        | ok o =>
          cases o with
          | none => rw [hs] at h; exact absurd h (by simp)
          | some j =>
            rw [hs] at h
            simp only [Except.ok.injEq, Option.some.injEq] at h
            subst h
            rw [List.set_cons_succ, scan_unguarded_cons_some k target r _ c hc,
              if_neg he, scan_unguarded_set rs k target j new hs hnew]

theorem scan_guarded_found : ∀ (data : List Row) (k : Nat) (target : String) (i : Nat),
    scan_guarded k target data = some i →
    ∃ row, data.get? i = some row ∧ row.get? k = some (Cell.str target)
  | [], k, target, i, h => by simp [scan_guarded] at h
  | r :: rs, k, target, i, h => by
    cases hc : r.get? k with
    | none =>
      rw [scan_guarded_cons_none k target r rs hc] at h
      cases hs : scan_guarded k target rs with
      | none => rw [hs] at h; exact absurd h (by simp)
      | some j =>
        rw [hs] at h
        simp only [Option.map_some', Option.some.injEq] at h
        obtain ⟨row, hrow, hcell⟩ := scan_guarded_found rs k target j hs
        exact ⟨row, by rw [← h]; simpa using hrow, hcell⟩
    | some c =>
      rw [scan_guarded_cons_some k target r rs c hc] at h
      by_cases he : c = Cell.str target
      · rw [if_pos he] at h
        simp only [Option.some.injEq] at h
        subst h
        exact ⟨r, by simp, by rw [hc, he]⟩
      · rw [if_neg he] at h
        cases hs : scan_guarded k target rs with
        | none => rw [hs] at h; exact absurd h (by simp)
        | some j =>
          rw [hs] at h
          simp only [Option.map_some', Option.some.injEq] at h
          obtain ⟨row, hrow, hcell⟩ := scan_guarded_found rs k target j hs
          exact ⟨row, by rw [← h]; simpa using hrow, hcell⟩

theorem scan_guarded_none_iff : ∀ (data : List Row) (k : Nat) (target : String),
    scan_guarded k target data = none ↔
      ∀ row ∈ data, row.get? k ≠ some (Cell.str target)
  | [], k, target => by simp [scan_guarded]
  | r :: rs, k, target => by
    cases hc : r.get? k with
    | none =>
      rw [scan_guarded_cons_none k target r rs hc]
      simp only [Option.map_eq_none', List.mem_cons]
      constructor
      · intro h row hm
        rcases hm with rfl | hm
        · rw [List.get?_eq_getElem?] at hc
          simp [hc]
        · exact (scan_guarded_none_iff rs k target).1 h row hm
      · intro h
        exact (scan_guarded_none_iff rs k target).2 fun row hm => h row (Or.inr hm)
    | some c =>
      rw [scan_guarded_cons_some k target r rs c hc]
      by_cases he : c = Cell.str target
      · rw [if_pos he]
        simp only [List.mem_cons]
        constructor
        · intro h; exact absurd h (by simp)
        · intro h
          exact absurd (hc.trans (by rw [he])) (h r (Or.inl rfl))
      · rw [if_neg he]
        simp only [Option.map_eq_none', List.mem_cons]
        constructor
        · intro h row hm
          rcases hm with rfl | hm
          · rw [hc]; intro hx; exact he (by injection hx)
          · exact (scan_guarded_none_iff rs k target).1 h row hm
        · intro h
          exact (scan_guarded_none_iff rs k target).2 fun row hm => h row (Or.inr hm)

theorem get?_of_mem_row : ∀ (l : List Row) (x : Row), x ∈ l → ∃ j, l.get? j = some x
  | [], x, h => absurd h (by simp)
  | a :: l, x, h => by
    rcases List.mem_cons.1 h with rfl | h2
    · exact ⟨0, rfl⟩
    · obtain ⟨j, hj⟩ := get?_of_mem_row l x h2
      exact ⟨j + 1, by simpa using hj⟩

theorem mem_eraseIdx_get? : ∀ (l : List Row) (i : Nat) (x : Row),
    x ∈ l.eraseIdx i → ∃ j, j ≠ i ∧ l.get? j = some x
  | [], i, x, h => absurd h (by simp [List.eraseIdx])
  | a :: l, 0, x, h => by
    simp only [List.eraseIdx] at h
    obtain ⟨j, hj⟩ := get?_of_mem_row l x h
    exact ⟨j + 1, by simp, by simpa using hj⟩
  | a :: l, i + 1, x, h => by
    simp only [List.eraseIdx, List.mem_cons] at h
    rcases h with rfl | h2
    · exact ⟨0, by simp, rfl⟩
    · obtain ⟨j, hne, hj⟩ := mem_eraseIdx_get? l i x h2
      exact ⟨j + 1, by omega, by simpa using hj⟩

theorem eraseIdx_take_drop : ∀ (l : List Row) (i : Nat),
    l.eraseIdx i = l.take i ++ l.drop (i + 1)
  | [], i => by simp [List.eraseIdx]
  | a :: l, 0 => by simp [List.eraseIdx]
  | a :: l, i + 1 => by
    simp only [List.eraseIdx, List.take, List.drop, List.cons_append]
    rw [eraseIdx_take_drop l i]

/-- Claim C7: for every table whose current header differs from its expected
column list, the schema-ensuring startup step leaves the table with a header
exactly equal (same strings, same order) to the expected column list, and
running the step again on the resulting state changes nothing. -/
theorem claim_C7 (t : Table) (headers : List String)
    (hdrift : row_values1 t ≠ strs headers) :
    ensure_table noFault (some t) headers = .ok [strs headers] ∧
    row_values1 [strs headers] = strs headers ∧
    ensure_table noFault (some [strs headers]) headers = .ok [strs headers] := by
  refine ⟨?_, rfl, ?_⟩
  · simp [ensure_table, hdrift, safe_append_row, append_loop, noFault]
  · simp [ensure_table, row_values1]

/-- Witness for C7 at a concrete drifted table. -/
theorem claim_C7_witness :
    row_values1 [strs ["wrong"]] ≠ strs menuItemsColumns ∧
    ensure_table noFault (some [strs ["wrong"]]) menuItemsColumns
      = .ok [strs menuItemsColumns] ∧
    ensure_table noFault (some [strs menuItemsColumns]) menuItemsColumns
      = .ok [strs menuItemsColumns] :=
  ⟨by decide, (claim_C7 [strs ["wrong"]] menuItemsColumns (by decide)).1,
   (claim_C7 [strs ["wrong"]] menuItemsColumns (by decide)).2.2⟩

/-- Claim C1, evaluated at the failing inputs: an update or delete by an id
that no data row carries yields an HTTP 500 response, not 404 — each
handler's own `HTTPException(404)` is raised inside its `try` block,
caught by `except Exception`, and re-raised as a 500 whose detail is the
stringified 404 exception. -/
theorem claim_C1 :
    update_menu_item noFault [strs menuItemsColumns] "missing"
        { name := "Burger", price := 10, description := "d", category := "Mains" } "T1"
      = (.err 500 "404: Menu item not found", [strs menuItemsColumns]) ∧
    delete_menu_item noFault [strs menuItemsColumns] "missing"
      = (.err 500 "404: Item not found", [strs menuItemsColumns]) ∧
    delete_order noFault [strs ordersColumns] "missing"
      = (.err 500 "404: Order not found", [strs ordersColumns]) := by
  refine ⟨?_, ?_, ?_⟩ <;> decide

/-- Claim C2, evaluated at the failing input: a syntactically valid
reservation-complete request with name `Alice` is accepted, but the row the
source persists has only 8 cells against the 9-column Reservations header —
the `name` value is dropped and the date lands in the `name` column. -/
theorem claim_C2 :
    handle_reservation parseStub noFault [strs reservationsColumns] "r1" "T1"
        "+15551234567" (some "Alice") "2024-12-01" "18:30" 2 none none
      = (.ok "r1",
         [strs reservationsColumns,
          [.str "r1", .str "T1", .str "+15551234567", .str "2024-12-01", .str "18:30",
           .num 2, .str "None", .str "New"]]) ∧
    (strs reservationsColumns).length = 9 ∧
    ([.str "r1", .str "T1", .str "+15551234567", .str "2024-12-01", .str "18:30",
      .num 2, .str "None", .str "New"] : Row).length = 8 ∧
    ([.str "r1", .str "T1", .str "+15551234567", .str "2024-12-01", .str "18:30",
      .num 2, .str "None", .str "New"] : Row).get? 3 ≠ some (.str "Alice") := by
  refine ⟨?_, ?_, ?_, ?_⟩ <;> decide

/-- Claim C3 counterexample: with a transient backend error on the first
attempt only, the reservation-complete append fails outright with a 500
and writes nothing (it is a bare `ws.append_row`), while the same write
wrapped in `safe_append_row` succeeds on the second attempt after one
5-second backoff — so not every append is wrapped in the retry policy. -/
theorem claim_C3_cex :
    handle_reservation parseStub faultFirst [strs reservationsColumns] "r1" "T1"
        "+15551234567" (some "Alice") "2024-12-01" "18:30" 2 none none
      = (.err 500 "Internal server error: APIError", [strs reservationsColumns]) ∧
    safe_append_row faultFirst [strs reservationsColumns]
        [.str "r1", .str "T1", .str "+15551234567", .str "2024-12-01", .str "18:30",
         .num 2, .str "None", .str "New"]
      = .ok ([strs reservationsColumns,
              [.str "r1", .str "T1", .str "+15551234567", .str "2024-12-01", .str "18:30",
               .num 2, .str "None", .str "New"]], 5) := by
  exact ⟨by decide, rfl⟩

/-- Claim C3 as amended: `safe_append_row` makes up to 3 total attempts
with a fixed 5-second backoff between failed attempts and propagates the
error after the last one; the menu-item, FAQ, order and call-log creation
appends go through it, but the reservation-complete append is a bare
single-attempt `ws.append_row` (its handler writes nothing whenever the
first attempt fails, even when a retry would have succeeded), and update
mutations are likewise single-attempt and never retried. -/
theorem claim_C3 (fault : Nat → Bool) (t : Table) (row : Row) :
    (fault 0 = false → safe_append_row fault t row = .ok (t ++ [row], 0)) ∧
    (fault 0 = true → fault 1 = false →
      safe_append_row fault t row = .ok (t ++ [row], 5)) ∧
    (fault 0 = true → fault 1 = true → fault 2 = false →
      safe_append_row fault t row = .ok (t ++ [row], 10)) ∧
    (fault 0 = true → fault 1 = true → fault 2 = true →
      safe_append_row fault t row = .error .apiErr) ∧
    (∀ (item : MenuItem) (new_id now : String), fault 0 = true → fault 1 = false →
      add_menu_item fault t item new_id now
        = (.ok new_id,
           t ++ [[.str new_id, .str item.name, .num item.price, .str item.description,
                  .str item.category, .str now]])) ∧
    (∀ (f : FAQ) (new_id now : String), fault 0 = true → fault 1 = false →
      add_faq fault t f new_id now
        = (.ok new_id,
           prune_blank t ++ [[.str new_id, .str f.question, .str f.answer, .str now]])) ∧
    (∀ (parse : String → PhoneParse) (oid now phone : String) (name : Option String)
        (items : List String) (total : Rat) (si st : Option String) (o : Order),
      fault 0 = true → fault 1 = false →
      mkOrder parse phone name items total si st = .ok o → ¬o.total < 0 →
      handle_order parse fault t oid now phone name items total si st
        = (.ok oid,
           t ++ [[.str oid, .str now, .str o.phone, .str o.name, .str (jsonDumps o.items),
                  .num o.total, .str o.special_instructions, .str o.status]])) ∧
    (∀ (cid now phone : String), fault 0 = true → fault 1 = false →
      create_call_log fault t cid now phone
        = (some cid,
           t ++ [[.str cid, .str now, .str phone, .str "0", .str "in-progress",
                  .str "", .str "", .str ""]])) ∧
    (∀ (parse : String → PhoneParse) (rid now phone : String) (name : Option String)
        (date time : String) (ps : Int) (sr st : Option String),
      fault 0 = true →
      (handle_reservation parse fault t rid now phone name date time ps sr st).2 = t) ∧
    (∀ (data : List Row) (oid : String) (o : Order) (now : String) (i : Nat),
      fault 0 = true → scan_unguarded 0 oid data = .ok (some i) →
      update_order fault (strs ordersColumns :: data) oid o now
        = (.err 500 (strErr .apiErr), strs ordersColumns :: data)) := by
  have hsafe0 : fault 0 = false → ∀ (t' : Table) (row' : Row),
      safe_append_row fault t' row' = .ok (t' ++ [row'], 0) := by
    intro h0 t' row'
    simp [safe_append_row, append_loop, h0]
  have hsafe5 : fault 0 = true → fault 1 = false → ∀ (t' : Table) (row' : Row),
      safe_append_row fault t' row' = .ok (t' ++ [row'], 5) := by
    intro h0 h1 t' row'
    simp [safe_append_row, append_loop, h0, h1]
  refine ⟨fun h0 => hsafe0 h0 t row, fun h0 h1 => hsafe5 h0 h1 t row, ?_, ?_, ?_, ?_, ?_,
    ?_, ?_, ?_⟩
  · intro h0 h1 h2
    simp [safe_append_row, append_loop, h0, h1, h2]
  · intro h0 h1 h2
    simp [safe_append_row, append_loop, h0, h1, h2]
  · intro item new_id now h0 h1
    simp [add_menu_item, hsafe5 h0 h1]
  · intro f new_id now h0 h1
    simp [add_faq, hsafe5 h0 h1]
  · intro parse oid now phone name items total si st o h0 h1 hmk htot
    simp [handle_order, hmk, htot, hsafe5 h0 h1]
  · intro cid now phone h0 h1
    simp [create_call_log, hsafe5 h0 h1]
  · intro parse rid now phone name date time ps sr st h0
    simp only [handle_reservation]
    cases hm : mkReservation parse phone name date time ps sr st with
    | error e => rfl
    | ok r =>
      simp only [append_row, h0, if_true]
      split
      · rfl
      · split
        · rfl
        · split
          · rfl
          · rfl
  · intro data oid o now i h0 hscan
    have hidx : (strs ordersColumns).findIdx? (fun c => decide (c = Cell.str "id"))
        = some 0 := by decide
    simp [update_order, hidx, hscan, h0]

/-- Witness for the amended C3 at concrete inputs: a fault script failing
only the first attempt. -/
theorem claim_C3_witness :
    faultFirst 0 = true ∧ faultFirst 1 = false ∧
    safe_append_row faultFirst [] [Cell.str "x"] = .ok ([[Cell.str "x"]], 5) ∧
    create_call_log faultFirst [] "c1" "T1" "+15550000000"
      = (some "c1",
         [[Cell.str "c1", Cell.str "T1", Cell.str "+15550000000", Cell.str "0",
           Cell.str "in-progress", Cell.str "", Cell.str "", Cell.str ""]]) ∧
    (handle_reservation parseStub faultFirst [strs reservationsColumns] "r1" "T1"
        "+15551234567" none "2024-12-01" "18:30" 2 none none).2
      = [strs reservationsColumns] ∧
    scan_unguarded 0 "o1" [[Cell.str "o1"]] = .ok (some 0) ∧
    update_order faultFirst (strs ordersColumns :: [[Cell.str "o1"]]) "o1"
        { phone := "+15551234567", name := "Bob", items := ["burger"], total := 5,
          special_instructions := "", status := "New" } "T2"
      = (.err 500 (strErr .apiErr), strs ordersColumns :: [[Cell.str "o1"]]) := by
  refine ⟨rfl, rfl, ?_, ?_, ?_, rfl, ?_⟩
  · have h := (claim_C3 faultFirst [] [Cell.str "x"]).2.1 rfl rfl
    simpa using h
  · have h := (claim_C3 faultFirst [] [Cell.str "x"]).2.2.2.2.2.2.2.1 "c1" "T1"
      "+15550000000" rfl rfl
    simpa using h
  · exact (claim_C3 faultFirst [strs reservationsColumns] []).2.2.2.2.2.2.2.2.1
      parseStub "r1" "T1" "+15551234567" none "2024-12-01" "18:30" 2 none none rfl
  · exact (claim_C3 faultFirst [] []).2.2.2.2.2.2.2.2.2 [[Cell.str "o1"]] "o1"
      { phone := "+15551234567", name := "Bob", items := ["burger"], total := 5,
        special_instructions := "", status := "New" } "T2" 0 rfl rfl

theorem toolCallErr_err (e : PyErr) : ∃ s d, (toolCallErr e : HResp String) = .err s d := by
  cases e <;> exact ⟨_, _, rfl⟩

/-- Claim C4 counterexample: an inbound call whose `From` form field is the
string `anonymous` produces a Call Logs row whose phone cell is that
literal string, which is not in E.164 normalized form — Call Log rows are
written with no phone validation or normalization at all. -/
theorem claim_C4_cex :
    create_call_log noFault [strs callLogsColumns] "c1" "T1" "anonymous"
      = (some "c1",
         [strs callLogsColumns,
          [.str "c1", .str "T1", .str "anonymous", .str "0", .str "in-progress",
           .str "", .str "", .str ""]]) ∧
    isE164 "anonymous" = false := by
  exact ⟨by decide, by decide⟩
theorem append_loop_cons (fault : Nat → Bool) (t : Table) (row : Row) (a : Nat)
    (rest : List Nat) (slept : Nat) :
    append_loop fault t row (a :: rest) slept =
      (if fault a then
        match rest with
        | [] => .error .apiErr
        | _ :: _ => append_loop fault t row rest (slept + 5)
      else .ok (t ++ [row], slept)) := rfl

theorem safe_append_loop_ok : ∀ (attempts : List Nat) (fault : Nat → Bool) (t : Table)
    (row : Row) (slept : Nat) (t2 : Table) (n : Nat),
    append_loop fault t row attempts slept = .ok (t2, n) → t2 = t ++ [row]
  | [], fault, t, row, slept, t2, n, h => by simp [append_loop] at h
  | a :: rest, fault, t, row, slept, t2, n, h => by
    rw [append_loop_cons] at h
    by_cases hf : fault a
    · rw [if_pos hf] at h
      cases rest with
      | nil => exact absurd h (by simp)
      | cons b bs => exact safe_append_loop_ok (b :: bs) fault t row (slept + 5) t2 n h
    · rw [if_neg hf] at h
      simp only [Except.ok.injEq, Prod.mk.injEq] at h
      exact h.1.symm

theorem safe_append_ok (fault : Nat → Bool) (t : Table) (row : Row) (t2 : Table)
    (n : Nat) (h : safe_append_row fault t row = .ok (t2, n)) : t2 = t ++ [row] :=
  safe_append_loop_ok [0, 1, 2] fault t row 0 t2 n h

/-- Claim C4 as amended: Order and Reservation creation rejects an
unparsable or invalid phone with a 400 validation error and an unchanged
table, and every successful creation stores exactly the E.164 output of
the phone library in the phone column of the appended row; Call Log rows
instead store the inbound caller string verbatim, unvalidated. -/
theorem claim_C4 (parse : String → PhoneParse) (fault : Nat → Bool) (t : Table) :
    (∀ (oid now phone : String) (name : Option String) (items : List String)
        (total : Rat) (si st : Option String),
      (parse (pyStrip phone) = .unparsable ∨ parse (pyStrip phone) = .invalid) →
      ∃ m, handle_order parse fault t oid now phone name items total si st
        = (.err 400 m, t)) ∧
    (∀ (rid now phone : String) (name : Option String) (date time : String)
        (ps : Int) (sr st : Option String),
      (parse (pyStrip phone) = .unparsable ∨ parse (pyStrip phone) = .invalid) →
      ∃ m, handle_reservation parse fault t rid now phone name date time ps sr st
        = (.err 400 m, t)) ∧
    (∀ (oid now phone : String) (name : Option String) (items : List String)
        (total : Rat) (si st : Option String) (res : String) (t' : Table),
      handle_order parse fault t oid now phone name items total si st = (.ok res, t') →
      ∃ e164 o, parse (pyStrip phone) = .valid e164 ∧
        mkOrder parse phone name items total si st = .ok o ∧ o.phone = e164 ∧
        t' = t ++ [[.str oid, .str now, .str e164, .str o.name,
                    .str (jsonDumps o.items), .num o.total,
                    .str o.special_instructions, .str o.status]]) ∧
    (∀ (rid now phone : String) (name : Option String) (date time : String)
        (ps : Int) (sr st : Option String) (res : String) (t' : Table),
      handle_reservation parse fault t rid now phone name date time ps sr st
        = (.ok res, t') →
      ∃ e164, parse (pyStrip phone) = .valid e164 ∧
        t' = t ++ [[.str rid, .str now, .str e164, .str date, .str time,
                    .num (ps : Rat),
                    .str (if sr.getD "" = "" then "None" else sr.getD ""),
                    .str "New"]]) ∧
    (∀ (cid now phone : String),
      create_call_log fault t cid now phone = (some cid,
        t ++ [[.str cid, .str now, .str phone, .str "0", .str "in-progress",
               .str "", .str "", .str ""]]) ∨
      create_call_log fault t cid now phone = (none, t)) := by
  refine ⟨?_, ?_, ?_, ?_, ?_⟩
  · intro oid now phone name items total si st hp
    rcases hp with hp | hp
    · exact ⟨"Invalid phone number format",
        by simp [handle_order, mkOrder, normalize_phone, hp, toolCallErr]⟩
    · exact ⟨"Invalid phone number",
        by simp [handle_order, mkOrder, normalize_phone, hp, toolCallErr]⟩
  · intro rid now phone name date time ps sr st hp
    rcases hp with hp | hp
    · exact ⟨"Invalid phone number format",
        by simp [handle_reservation, mkReservation, normalize_phone, hp, toolCallErr]⟩
    · exact ⟨"Invalid phone number",
        by simp [handle_reservation, mkReservation, normalize_phone, hp, toolCallErr]⟩
  · intro oid now phone name items total si st res t' h
    cases hm : mkOrder parse phone name items total si st with
    | error e =>
      obtain ⟨s, d, hE⟩ := toolCallErr_err e
      simp [handle_order, hm, hE] at h
    | ok o =>
      obtain ⟨e, hp, hophone⟩ : ∃ e, parse (pyStrip phone) = .valid e ∧ o.phone = e := by
        cases hp : parse (pyStrip phone) with
        | unparsable => simp [mkOrder, normalize_phone, hp] at hm
        | invalid => simp [mkOrder, normalize_phone, hp] at hm
        | valid e =>
          refine ⟨e, rfl, ?_⟩
          simp only [mkOrder, normalize_phone, hp] at hm
          by_cases hi : items = []
          · rw [if_pos hi] at hm; exact absurd hm (by simp)
          · rw [if_neg hi] at hm
            simp only [Except.ok.injEq] at hm
            rw [← hm]
      by_cases htot : o.total < 0
      · simp [handle_order, hm, htot, toolCallErr] at h
      · cases hs : safe_append_row fault t
            [.str oid, .str now, .str o.phone, .str o.name, .str (jsonDumps o.items),
             .num o.total, .str o.special_instructions, .str o.status] with
        | error e2 =>
          obtain ⟨s, d, hE⟩ := toolCallErr_err e2
          simp [handle_order, hm, htot, hs, hE] at h
        | ok p =>
          obtain ⟨t2, slept⟩ := p
          have ht2 := safe_append_ok fault t _ t2 slept hs
          simp only [handle_order, hm, htot, if_false, hs] at h
          simp only [Prod.mk.injEq, HResp.ok.injEq] at h
          refine ⟨e, o, hp, rfl, hophone, ?_⟩
          rw [← h.2, ht2, hophone]
  · intro rid now phone name date time ps sr st res t' h
    cases hm : mkReservation parse phone name date time ps sr st with
    | error e =>
      obtain ⟨s, d, hE⟩ := toolCallErr_err e
      simp [handle_reservation, hm, hE] at h
    | ok r =>
      obtain ⟨e, hp, hr⟩ : ∃ e, parse (pyStrip phone) = .valid e ∧
          r = { phone := e, name := name.getD "Unknown", date := date, time := time,
                party_size := ps, special_requests := sr.getD "",
                status := st.getD "New" } := by
        cases hp : parse (pyStrip phone) with
        | unparsable => simp [mkReservation, normalize_phone, hp] at hm
        | invalid => simp [mkReservation, normalize_phone, hp] at hm
        | valid e =>
          refine ⟨e, rfl, ?_⟩
          simp only [mkReservation, normalize_phone, hp] at hm
          by_cases hps : ps ≤ 0
          · rw [if_pos hps] at hm; exact absurd hm (by simp)
          · rw [if_neg hps] at hm
            simp only [Except.ok.injEq] at hm
            rw [← hm]
      by_cases hd : parse_date r.date = false
      · simp [handle_reservation, hm, hd, toolCallErr] at h
      · by_cases htm : parse_time r.time = false
        · simp [handle_reservation, hm, hd, htm, toolCallErr] at h
        · by_cases hps2 : r.party_size ≤ 0 ∨ r.party_size > 20
          · simp [handle_reservation, hm, hd, htm, hps2, toolCallErr] at h
          · by_cases hf : fault 0
            · simp [handle_reservation, hm, hd, htm, hps2, append_row, hf,
                toolCallErr] at h
            · have hval : handle_reservation parse fault t rid now phone name date
                  time ps sr st
                  = (.ok rid,
                     t ++ [[.str rid, .str now, .str r.phone, .str r.date, .str r.time,
                            .num (r.party_size : Rat),
                            .str (if r.special_requests = "" then "None"
                                  else r.special_requests), .str "New"]]) := by
                simp [handle_reservation, hm, hd, htm, hps2, append_row, hf]
              rw [hval] at h
              simp only [Prod.mk.injEq, HResp.ok.injEq] at h
              refine ⟨e, hp, ?_⟩
              rw [← h.2, hr]
  · intro cid now phone
    cases hs : safe_append_row fault t
        [.str cid, .str now, .str phone, .str "0", .str "in-progress",
         .str "", .str "", .str ""] with
    | ok p =>
      left
      obtain ⟨t2, n⟩ := p
      have ht2 := safe_append_ok fault t _ t2 n hs
      simp [create_call_log, hs, ht2]
    | error e =>
      right
      simp [create_call_log, hs]

/-- Witness for the amended C4 at concrete inputs. -/
theorem claim_C4_witness :
    (parseStub (pyStrip "bad") = .unparsable ∨ parseStub (pyStrip "bad") = .invalid) ∧
    (∃ m, handle_order parseStub noFault [strs ordersColumns] "o1" "T1" "bad" none
        ["burger"] 5 none none = (.err 400 m, [strs ordersColumns])) ∧
    (∃ m, handle_reservation parseStub noFault [strs reservationsColumns] "r1" "T1"
        "bad" none "2024-12-01" "18:30" 2 none none
        = (.err 400 m, [strs reservationsColumns])) ∧
    handle_order parseStub noFault [] "o1" "T1" "+15551234567" (some "Bob")
        ["burger"] 5 none none
      = (.ok "o1",
         [[Cell.str "o1", Cell.str "T1", Cell.str "+15551234567", Cell.str "Bob",
           Cell.str (jsonDumps ["burger"]), Cell.num 5, Cell.str "", Cell.str "New"]]) ∧
    (∃ e164 o, parseStub (pyStrip "+15551234567") = .valid e164 ∧
      mkOrder parseStub "+15551234567" (some "Bob") ["burger"] 5 none none = .ok o ∧
      o.phone = e164 ∧
      ([[Cell.str "o1", Cell.str "T1", Cell.str "+15551234567", Cell.str "Bob",
         Cell.str (jsonDumps ["burger"]), Cell.num 5, Cell.str "", Cell.str "New"]] : Table)
        = [] ++ [[Cell.str "o1", Cell.str "T1", Cell.str e164, Cell.str o.name,
                  Cell.str (jsonDumps o.items), Cell.num o.total,
                  Cell.str o.special_instructions, Cell.str o.status]]) ∧
    (create_call_log noFault [] "c1" "T1" "anon2"
        = (some "c1",
           [] ++ [[Cell.str "c1", Cell.str "T1", Cell.str "anon2", Cell.str "0",
                   Cell.str "in-progress", Cell.str "", Cell.str "", Cell.str ""]]) ∨
      create_call_log noFault [] "c1" "T1" "anon2" = (none, [])) :=
  ⟨Or.inl (by decide),
   (claim_C4 parseStub noFault [strs ordersColumns]).1 "o1" "T1" "bad" none ["burger"]
     5 none none (Or.inl (by decide)),
   (claim_C4 parseStub noFault [strs reservationsColumns]).2.1 "r1" "T1" "bad" none
     "2024-12-01" "18:30" 2 none none (Or.inl (by decide)),
   by decide,
   (claim_C4 parseStub noFault []).2.2.1 "o1" "T1" "+15551234567" (some "Bob")
     ["burger"] 5 none none "o1"
     [[Cell.str "o1", Cell.str "T1", Cell.str "+15551234567", Cell.str "Bob",
       Cell.str (jsonDumps ["burger"]), Cell.num 5, Cell.str "", Cell.str "New"]]
     (by decide),
   (claim_C4 parseStub noFault []).2.2.2.2 "c1" "T1" "anon2"⟩

theorem mkReservation_error_valueErr (parse : String → PhoneParse) (phone : String)
    (name : Option String) (date time : String) (ps : Int) (sr st : Option String)
    (e : PyErr) (hm : mkReservation parse phone name date time ps sr st = .error e) :
    ∃ m, e = .valueErr m := by
  cases hp : parse (pyStrip phone) with
  | unparsable =>
    simp [mkReservation, normalize_phone, hp] at hm
    exact ⟨_, hm.symm⟩
  | invalid =>
    simp [mkReservation, normalize_phone, hp] at hm
    exact ⟨_, hm.symm⟩
  | valid e2 =>
    simp only [mkReservation, normalize_phone, hp] at hm
    by_cases hps : ps ≤ 0
    · rw [if_pos hps] at hm
      simp only [Except.error.injEq] at hm
      exact ⟨_, hm.symm⟩
    · rw [if_neg hps] at hm
      exact absurd hm (by simp)

theorem mkReservation_ok_inv (parse : String → PhoneParse) (phone : String)
    (name : Option String) (date time : String) (ps : Int) (sr st : Option String)
    (r : Reservation) (hm : mkReservation parse phone name date time ps sr st = .ok r) :
    ∃ e, parse (pyStrip phone) = .valid e ∧ ¬ps ≤ 0 ∧
      r = { phone := e, name := name.getD "Unknown", date := date, time := time,
            party_size := ps, special_requests := sr.getD "",
            status := st.getD "New" } := by
  cases hp : parse (pyStrip phone) with
  | unparsable => simp [mkReservation, normalize_phone, hp] at hm
  | invalid => simp [mkReservation, normalize_phone, hp] at hm
  | valid e =>
    refine ⟨e, rfl, ?_⟩
    simp only [mkReservation, normalize_phone, hp] at hm
    by_cases hps : ps ≤ 0
    · rw [if_pos hps] at hm; exact absurd hm (by simp)
    · rw [if_neg hps] at hm
      simp only [Except.ok.injEq] at hm
      exact ⟨hps, hm.symm⟩

/-- Claim C9 counterexample: the update path performs none of the claimed
checks — a PUT with date `2024-13-01` and party_size 25 is accepted and
overwrites the stored row — and even the create path accepts `2024-1-01`,
which does not match the literal `YYYY-MM-DD` shape, because `strptime`
does not require zero padding. -/
theorem claim_C9_cex :
    update_reservation_endpoint parseStub noFault
        [strs reservationsColumns,
         [.str "r1", .str "T0", .str "+15551234567", .str "Alice", .str "2024-12-01",
          .str "18:30", .num 2, .str "", .str "New"]]
        "r1" "+15551234567" (some "Alice") "2024-13-01" "19:00" 25 none none "T2"
      = (.ok "r1",
         [strs reservationsColumns,
          [.str "r1", .str "T2", .str "+15551234567", .str "Alice", .str "2024-13-01",
           .str "19:00", .num 25, .str "", .str "New"]]) ∧
    parse_date "2024-13-01" = false ∧
    specMatchesYYYYMMDD "2024-1-01" = false ∧
    handle_reservation parseStub noFault [strs reservationsColumns] "r2" "T1"
        "+15551234567" none "2024-1-01" "18:30" 2 none none
      = (.ok "r2",
         [strs reservationsColumns,
          [.str "r2", .str "T1", .str "+15551234567", .str "2024-1-01", .str "18:30",
           .num 2, .str "None", .str "New"]]) := by
  refine ⟨?_, ?_, ?_, ?_⟩ <;> decide

/-- Claim C9 as amended: a reservation-complete create request whose date
fails the (zero-padding-lenient) `%Y-%m-%d` parse, whose time fails the
`%H:%M` parse, or whose party_size lies outside [1, 20] is rejected with a
400 validation error and the table is unchanged; on the update path the
only party-size check is the model validator `party_size > 0`, rejected as
a 422 before the handler body runs, with the table unchanged. -/
theorem claim_C9 (parse : String → PhoneParse) (fault : Nat → Bool) (t : Table)
    (rid now phone : String) (name : Option String) (date time : String) (ps : Int)
    (sr st : Option String) :
    ((parse_date date = false ∨ parse_time time = false ∨ ps < 1 ∨ ps > 20) →
      ∃ m, handle_reservation parse fault t rid now phone name date time ps sr st
        = (.err 400 m, t)) ∧
    (ps ≤ 0 →
      ∃ m, update_reservation_endpoint parse fault t rid phone name date time ps sr st
          now
        = (.err 422 m, t)) := by
  constructor
  · intro hbad
    cases hm : mkReservation parse phone name date time ps sr st with
    | error e =>
      obtain ⟨m, rfl⟩ := mkReservation_error_valueErr parse phone name date time ps
        sr st e hm
      exact ⟨m, by simp [handle_reservation, hm, toolCallErr]⟩
    | ok r =>
      obtain ⟨e, hp, hps, hr⟩ := mkReservation_ok_inv parse phone name date time ps
        sr st r hm
      by_cases hd : parse_date r.date = false
      · exact ⟨"Invalid date format. Use YYYY-MM-DD",
          by simp [handle_reservation, hm, hd, toolCallErr]⟩
      · by_cases htm : parse_time r.time = false
        · exact ⟨"Invalid time format. Use HH:MM (24h)",
            by simp [handle_reservation, hm, hd, htm, toolCallErr]⟩
        · have hps2 : r.party_size ≤ 0 ∨ r.party_size > 20 := by
            rw [hr]
            simp only []
            rcases hbad with hb | hb | hb | hb
            · exact absurd hb (by rw [hr] at hd; simpa using hd)
            · exact absurd hb (by rw [hr] at htm; simpa using htm)
            · omega
            · omega
          exact ⟨"Party size must be between 1 and 20",
            by simp [handle_reservation, hm, hd, htm, hps2, toolCallErr]⟩
  · intro hps
    cases hm : mkReservation parse phone name date time ps sr st with
    | error e =>
      exact ⟨strErr e, by simp [update_reservation_endpoint, hm]⟩
    | ok r =>
      obtain ⟨e, hp, hps2, hr⟩ := mkReservation_ok_inv parse phone name date time ps
        sr st r hm
      exact absurd hps hps2

/-- Witness for the amended C9 at concrete inputs. -/
theorem claim_C9_witness :
    (parse_date "2024-13-01" = false ∨ parse_time "18:30" = false ∨ (25 : Int) < 1 ∨
      (25 : Int) > 20) ∧
    (∃ m, handle_reservation parseStub noFault [strs reservationsColumns] "r1" "T1"
        "+15551234567" none "2024-13-01" "18:30" 25 none none
      = (.err 400 m, [strs reservationsColumns])) ∧
    (0 : Int) ≤ 0 ∧
    (∃ m, update_reservation_endpoint parseStub noFault [strs reservationsColumns]
        "r1" "+15551234567" none "2024-12-01" "18:30" 0 none none "T2"
      = (.err 422 m, [strs reservationsColumns])) :=
  ⟨Or.inl (by decide),
   (claim_C9 parseStub noFault [strs reservationsColumns] "r1" "T1" "+15551234567"
     none "2024-13-01" "18:30" 25 none none).1 (Or.inl (by decide)),
   by decide,
   (claim_C9 parseStub noFault [strs reservationsColumns] "r1" "T2" "+15551234567"
     none "2024-12-01" "18:30" 0 none none).2 (by decide)⟩

theorem update_core (data : List Row) (id : String) (new : Row) (i : Nat)
    (hscan : scan_unguarded 0 id data = .ok (some i))
    (hnew0 : new.get? 0 = some (.str id)) :
    ∃ old, data.get? i = some old ∧ old.get? 0 = some (.str id) ∧
      data.getD i [] = old ∧
      (range_update old new).get? 0 = some (.str id) ∧
      (range_update old new).take new.length = new ∧
      scan_unguarded 0 id (data.set i (range_update old new)) = .ok (some i) := by
  obtain ⟨old, hold, hcell⟩ := scan_unguarded_found data 0 id i hscan
  have hgetD : data.getD i [] = old := by
    rw [List.getD_eq_getElem?_getD, ← List.get?_eq_getElem?, hold]
    rfl
  have h0 : (range_update old new).get? 0 = some (.str id) := by
    cases new with
    | nil => simp at hnew0
    | cons a new' => simpa [range_update] using hnew0
  have htake : (range_update old new).take new.length = new := List.take_left _ _
  exact ⟨old, hold, hcell, hgetD, h0, htake,
    scan_unguarded_set data 0 id i _ hscan h0⟩

/-- Claim C5: for every successful update-by-id on each entity, the id cell
of the updated row equals the id the row had before the update (the path
id: the request body types have no id field, so a caller-supplied id can
never reach the row), and reading back by that id finds the same row index
with exactly the updated field values. -/
theorem claim_C5 :
    (∀ (data : List Row) (item_id : String) (item : MenuItem) (now : String) (i : Nat),
      scan_unguarded 0 item_id data = .ok (some i) →
      ∃ old, data.get? i = some old ∧
        update_menu_item noFault (strs menuItemsColumns :: data) item_id item now
          = (.ok item_id,
             strs menuItemsColumns :: data.set i (range_update old
               [.str item_id, .str item.name, .num item.price, .str item.description,
                .str item.category, .str now])) ∧
        old.get? 0 = some (.str item_id) ∧
        (range_update old
          [.str item_id, .str item.name, .num item.price, .str item.description,
           .str item.category, .str now]).get? 0 = some (.str item_id) ∧
        (range_update old
          [.str item_id, .str item.name, .num item.price, .str item.description,
           .str item.category, .str now]).take 6
          = [.str item_id, .str item.name, .num item.price, .str item.description,
             .str item.category, .str now] ∧
        scan_unguarded 0 item_id (data.set i (range_update old
          [.str item_id, .str item.name, .num item.price, .str item.description,
           .str item.category, .str now])) = .ok (some i)) ∧
    (∀ (data : List Row) (faq_id : String) (f : FAQ) (now : String) (i : Nat),
      scan_unguarded 0 faq_id data = .ok (some i) →
      ∃ old, data.get? i = some old ∧
        update_faq noFault (strs faqsColumns :: data) faq_id f now
          = (.ok faq_id,
             strs faqsColumns :: data.set i (range_update old
               [.str faq_id, .str f.question, .str f.answer, .str now])) ∧
        old.get? 0 = some (.str faq_id) ∧
        (range_update old [.str faq_id, .str f.question, .str f.answer, .str now]).get? 0
          = some (.str faq_id) ∧
        (range_update old [.str faq_id, .str f.question, .str f.answer, .str now]).take 4
          = [.str faq_id, .str f.question, .str f.answer, .str now] ∧
        scan_unguarded 0 faq_id (data.set i (range_update old
          [.str faq_id, .str f.question, .str f.answer, .str now])) = .ok (some i)) ∧
    (∀ (data : List Row) (order_id : String) (o : Order) (now : String) (i : Nat),
      scan_unguarded 0 order_id data = .ok (some i) →
      ∃ old, data.get? i = some old ∧
        update_order noFault (strs ordersColumns :: data) order_id o now
          = (.ok order_id,
             strs ordersColumns :: data.set i (range_update old
               [.str order_id, .str now, .str o.phone, .str o.name,
                .str (jsonDumps o.items), .num o.total, .str o.special_instructions,
                .str o.status])) ∧
        old.get? 0 = some (.str order_id) ∧
        (range_update old
          [.str order_id, .str now, .str o.phone, .str o.name, .str (jsonDumps o.items),
           .num o.total, .str o.special_instructions, .str o.status]).get? 0
          = some (.str order_id) ∧
        (range_update old
          [.str order_id, .str now, .str o.phone, .str o.name, .str (jsonDumps o.items),
           .num o.total, .str o.special_instructions, .str o.status]).take 8
          = [.str order_id, .str now, .str o.phone, .str o.name, .str (jsonDumps o.items),
             .num o.total, .str o.special_instructions, .str o.status] ∧
        scan_unguarded 0 order_id (data.set i (range_update old
          [.str order_id, .str now, .str o.phone, .str o.name, .str (jsonDumps o.items),
           .num o.total, .str o.special_instructions, .str o.status])) = .ok (some i)) ∧
    (∀ (data : List Row) (res_id : String) (r : Reservation) (now : String) (i : Nat),
      scan_unguarded 0 res_id data = .ok (some i) →
      ∃ old, data.get? i = some old ∧
        update_reservation noFault (strs reservationsColumns :: data) res_id r now
          = (.ok res_id,
             strs reservationsColumns :: data.set i (range_update old
               [.str res_id, .str now, .str r.phone, .str r.name, .str r.date,
                .str r.time, .num (r.party_size : Rat), .str r.special_requests,
                .str r.status])) ∧
        old.get? 0 = some (.str res_id) ∧
        (range_update old
          [.str res_id, .str now, .str r.phone, .str r.name, .str r.date, .str r.time,
           .num (r.party_size : Rat), .str r.special_requests, .str r.status]).get? 0
          = some (.str res_id) ∧
        (range_update old
          [.str res_id, .str now, .str r.phone, .str r.name, .str r.date, .str r.time,
           .num (r.party_size : Rat), .str r.special_requests, .str r.status]).take 9
          = [.str res_id, .str now, .str r.phone, .str r.name, .str r.date, .str r.time,
             .num (r.party_size : Rat), .str r.special_requests, .str r.status] ∧
        scan_unguarded 0 res_id (data.set i (range_update old
          [.str res_id, .str now, .str r.phone, .str r.name, .str r.date, .str r.time,
           .num (r.party_size : Rat), .str r.special_requests, .str r.status]))
          = .ok (some i)) := by
  refine ⟨?_, ?_, ?_, ?_⟩
  · intro data item_id item now i hscan
    obtain ⟨old, hold, hcell, hgetD, h0, htake, hrescan⟩ := update_core data item_id
      [.str item_id, .str item.name, .num item.price, .str item.description,
       .str item.category, .str now] i hscan rfl
    have hidx : (strs menuItemsColumns).findIdx? (fun c => decide (c = Cell.str "id"))
        = some 0 := by decide
    have hge : data[i]? = some old := by rw [← List.get?_eq_getElem?]; exact hold
    refine ⟨old, hold, ?_, hcell, h0, htake, hrescan⟩
    simp [update_menu_item, hidx, hscan, noFault, hge]
  · intro data faq_id f now i hscan
    obtain ⟨old, hold, hcell, hgetD, h0, htake, hrescan⟩ := update_core data faq_id
      [.str faq_id, .str f.question, .str f.answer, .str now] i hscan rfl
    have hidx : (strs faqsColumns).findIdx? (fun c => decide (c = Cell.str "id"))
        = some 0 := by decide
    have hge : data[i]? = some old := by rw [← List.get?_eq_getElem?]; exact hold
    refine ⟨old, hold, ?_, hcell, h0, htake, hrescan⟩
    simp [update_faq, hidx, hscan, noFault, hge]
  · intro data order_id o now i hscan
    obtain ⟨old, hold, hcell, hgetD, h0, htake, hrescan⟩ := update_core data order_id
      [.str order_id, .str now, .str o.phone, .str o.name, .str (jsonDumps o.items),
       .num o.total, .str o.special_instructions, .str o.status] i hscan rfl
    have hidx : (strs ordersColumns).findIdx? (fun c => decide (c = Cell.str "id"))
        = some 0 := by decide
    have hge : data[i]? = some old := by rw [← List.get?_eq_getElem?]; exact hold
    refine ⟨old, hold, ?_, hcell, h0, htake, hrescan⟩
    simp [update_order, hidx, hscan, noFault, hge]
  · intro data res_id r now i hscan
    obtain ⟨old, hold, hcell, hgetD, h0, htake, hrescan⟩ := update_core data res_id
      [.str res_id, .str now, .str r.phone, .str r.name, .str r.date, .str r.time,
       .num (r.party_size : Rat), .str r.special_requests, .str r.status] i hscan rfl
    have hidx : (strs reservationsColumns).findIdx?
        (fun c => decide (c = Cell.str "id")) = some 0 := by decide
    have hge : data[i]? = some old := by rw [← List.get?_eq_getElem?]; exact hold
    refine ⟨old, hold, ?_, hcell, h0, htake, hrescan⟩
    simp [update_reservation, hidx, hscan, noFault, hge]

/-- Witness for C5 at a concrete one-row menu table. -/
theorem claim_C5_witness :
    scan_unguarded 0 "m1"
        [[Cell.str "m1", Cell.str "Old", Cell.num 5, Cell.str "od", Cell.str "oc",
          Cell.str "T0"]] = .ok (some 0) ∧
    update_menu_item noFault
        (strs menuItemsColumns ::
          [[Cell.str "m1", Cell.str "Old", Cell.num 5, Cell.str "od", Cell.str "oc",
            Cell.str "T0"]]) "m1"
        { name := "Burger", price := 10, description := "d", category := "Mains" } "T1"
      = (.ok "m1",
         strs menuItemsColumns ::
           [[Cell.str "m1", Cell.str "Burger", Cell.num 10, Cell.str "d",
             Cell.str "Mains", Cell.str "T1"]]) := by
  refine ⟨rfl, ?_⟩
  obtain ⟨old, hold, hupd, _, _, _, _⟩ := claim_C5.1
    [[Cell.str "m1", Cell.str "Old", Cell.num 5, Cell.str "od", Cell.str "oc",
      Cell.str "T0"]] "m1"
    { name := "Burger", price := 10, description := "d", category := "Mains" } "T1" 0 rfl
  have holde : old = [Cell.str "m1", Cell.str "Old", Cell.num 5, Cell.str "od",
      Cell.str "oc", Cell.str "T0"] := by simpa using hold.symm
  subst holde
  exact hupd.trans (by decide)

/-- Claim C10: every successful MenuItem update overwrites the created_at
cell of the updated row with the time of the update, regardless of the
value the row held before. -/
theorem claim_C10 (data : List Row) (item_id : String) (item : MenuItem) (now : String)
    (i : Nat) (hscan : scan_unguarded 0 item_id data = .ok (some i)) :
    ∃ old, data.get? i = some old ∧
      update_menu_item noFault (strs menuItemsColumns :: data) item_id item now
        = (.ok item_id,
           strs menuItemsColumns :: data.set i (range_update old
             [.str item_id, .str item.name, .num item.price, .str item.description,
              .str item.category, .str now])) ∧
      (range_update old
        [.str item_id, .str item.name, .num item.price, .str item.description,
         .str item.category, .str now]).get? 5 = some (.str now) := by
  obtain ⟨old, hold, hcell, hgetD, h0, htake, hrescan⟩ := update_core data item_id
    [.str item_id, .str item.name, .num item.price, .str item.description,
     .str item.category, .str now] i hscan rfl
  have hge : data[i]? = some old := by rw [← List.get?_eq_getElem?]; exact hold
  have hidx : (strs menuItemsColumns).findIdx? (fun c => decide (c = Cell.str "id"))
      = some 0 := by decide
  refine ⟨old, hold, ?_, rfl⟩
  simp [update_menu_item, hidx, hscan, noFault, hge]

/-- Witness for C10 at a concrete one-row menu table: the stored creation
timestamp `T0` is replaced by the update time `T1`. -/
theorem claim_C10_witness :
    scan_unguarded 0 "m1"
        [[Cell.str "m1", Cell.str "Old", Cell.num 5, Cell.str "od", Cell.str "oc",
          Cell.str "T0"]] = .ok (some 0) ∧
    ∃ old,
      ([[Cell.str "m1", Cell.str "Old", Cell.num 5, Cell.str "od", Cell.str "oc",
         Cell.str "T0"]] : List Row).get? 0 = some old ∧
      update_menu_item noFault
          (strs menuItemsColumns ::
            [[Cell.str "m1", Cell.str "Old", Cell.num 5, Cell.str "od", Cell.str "oc",
              Cell.str "T0"]]) "m1"
          { name := "Burger", price := 10, description := "d", category := "Mains" }
          "T1"
        = (.ok "m1",
           strs menuItemsColumns ::
             ([[Cell.str "m1", Cell.str "Old", Cell.num 5, Cell.str "od", Cell.str "oc",
                Cell.str "T0"]] : List Row).set 0 (range_update old
               [Cell.str "m1", Cell.str "Burger", Cell.num 10, Cell.str "d",
                Cell.str "Mains", Cell.str "T1"])) ∧
      (range_update old
        [Cell.str "m1", Cell.str "Burger", Cell.num 10, Cell.str "d", Cell.str "Mains",
         Cell.str "T1"]).get? 5 = some (Cell.str "T1") :=
  ⟨rfl, claim_C10
    [[Cell.str "m1", Cell.str "Old", Cell.num 5, Cell.str "od", Cell.str "oc",
      Cell.str "T0"]] "m1"
    { name := "Burger", price := 10, description := "d", category := "Mains" } "T1" 0 rfl⟩

/-- Claim C6: when an id occurs in exactly one data row, delete-by-id
removes precisely the first (only) matching row, a subsequent scan for
that id yields NotFound, and the remaining rows are exactly the rows
before the deleted one followed by the rows after it, shifted up. -/
theorem claim_C6 :
    (∀ (data : List Row) (item_id : String) (i : Nat),
      scan_guarded 0 item_id data = some i →
      (∀ (j : Nat) (row : Row), data.get? j = some row →
        row.get? 0 = some (Cell.str item_id) → j = i) →
      delete_menu_item noFault (strs menuItemsColumns :: data) item_id
        = (.ok item_id, strs menuItemsColumns :: data.eraseIdx i) ∧
      scan_guarded 0 item_id (data.eraseIdx i) = none ∧
      data.eraseIdx i = data.take i ++ data.drop (i + 1)) ∧
    (∀ (data : List Row) (res_id : String) (i : Nat),
      scan_guarded 0 res_id data = some i →
      (∀ (j : Nat) (row : Row), data.get? j = some row →
        row.get? 0 = some (Cell.str res_id) → j = i) →
      delete_reservation noFault (strs reservationsColumns :: data) res_id
        = (.ok res_id, strs reservationsColumns :: data.eraseIdx i) ∧
      scan_guarded 0 res_id (data.eraseIdx i) = none ∧
      data.eraseIdx i = data.take i ++ data.drop (i + 1)) := by
  constructor
  · intro data item_id i hscan huniq
    have hidx : (strs menuItemsColumns).findIdx? (fun c => decide (c = Cell.str "id"))
        = some 0 := by decide
    refine ⟨by simp [delete_menu_item, hidx, hscan, noFault], ?_,
      eraseIdx_take_drop data i⟩
    rw [scan_guarded_none_iff]
    intro row hm hmatch
    obtain ⟨j, hjne, hj⟩ := mem_eraseIdx_get? data i row hm
    exact hjne (huniq j row hj hmatch)
  · intro data res_id i hscan huniq
    have hidx : (strs reservationsColumns).findIdx?
        (fun c => decide (c = Cell.str "id")) = some 0 := by decide
    refine ⟨by simp [delete_reservation, hidx, hscan, noFault], ?_,
      eraseIdx_take_drop data i⟩
    rw [scan_guarded_none_iff]
    intro row hm hmatch
    obtain ⟨j, hjne, hj⟩ := mem_eraseIdx_get? data i row hm
    exact hjne (huniq j row hj hmatch)

/-- Witness for C6 at a concrete two-row table: deleting `a` leaves exactly
the `b` row and a rescan for `a` finds nothing. -/
theorem claim_C6_witness :
    scan_guarded 0 "a" [[Cell.str "a"], [Cell.str "b"]] = some 0 ∧
    delete_menu_item noFault
        (strs menuItemsColumns :: [[Cell.str "a"], [Cell.str "b"]]) "a"
      = (.ok "a", strs menuItemsColumns :: [[Cell.str "b"]]) ∧
    scan_guarded 0 "a" [[Cell.str "b"]] = none := by
  have huniq : ∀ (j : Nat) (row : Row),
      ([[Cell.str "a"], [Cell.str "b"]] : List Row).get? j = some row →
      row.get? 0 = some (Cell.str "a") → j = 0 := by
    intro j row hj hm
    match j with
    | 0 => rfl
    | 1 =>
      cases hj
      exact absurd hm (by decide)
    | n + 2 => simp [List.get?] at hj
  have h := claim_C6.1 [[Cell.str "a"], [Cell.str "b"]] "a" 0 rfl huniq
  exact ⟨rfl, h.1, h.2.1⟩

theorem lookupPV_cons (k : String) (a : String × PVal) (l : List (String × PVal)) :
    lookupPV k (a :: l) = if a.1 = k then some a.2 else lookupPV k l := rfl

theorem lookupKey_cons (k : String) (a : String × Cell) (l : List (String × Cell)) :
    lookupKey k (a :: l) = if a.1 = k then some a.2 else lookupKey k l := rfl

theorem setKey_cons (k : String) (v : PVal) (a : String × PVal)
    (l : List (String × PVal)) :
    setKey (a :: l) k v = (if a.1 = k then (a.1, v) else a) :: setKey l k v := rfl

theorem asPVal_cons (a : String × Cell) (l : List (String × Cell)) :
    asPVal (a :: l) = (a.1, PVal.cell a.2) :: asPVal l := rfl

theorem lookupPV_asPVal (k : String) : ∀ (rec : List (String × Cell)),
    lookupPV k (asPVal rec) = (lookupKey k rec).map PVal.cell
  | [] => rfl
  | kv :: rest => by
    rw [asPVal_cons, lookupPV_cons, lookupKey_cons]
    by_cases h : kv.1 = k
    · rw [if_pos h, if_pos h]; rfl
    · rw [if_neg h, if_neg h, lookupPV_asPVal k rest]

theorem keys_setKey (k : String) (v : PVal) : ∀ (rec : List (String × PVal)),
    (setKey rec k v).map Prod.fst = rec.map Prod.fst
  | [] => rfl
  | a :: l => by
    rw [setKey_cons, List.map_cons, List.map_cons, keys_setKey k v l]
    by_cases h : a.1 = k
    · rw [if_pos h]
    · rw [if_neg h]

theorem lookupPV_setKey_ne (k k2 : String) (v : PVal) (h : k ≠ k2) :
    ∀ (rec : List (String × PVal)), lookupPV k (setKey rec k2 v) = lookupPV k rec
  | [] => rfl
  | a :: l => by
    rw [setKey_cons, lookupPV_cons, lookupPV_cons]
    by_cases h2 : a.1 = k2
    · have h3 : ¬a.1 = k := fun hh => h (hh ▸ h2.symm ▸ rfl)
      rw [if_pos h2]
      show (if a.1 = k then some v else lookupPV k (setKey l k2 v)) = _
      rw [if_neg h3, if_neg h3, lookupPV_setKey_ne k k2 v h l]
    · rw [if_neg h2]
      by_cases h4 : a.1 = k
      · rw [if_pos h4, if_pos h4]
      · rw [if_neg h4, if_neg h4, lookupPV_setKey_ne k k2 v h l]

theorem lookupPV_any (k : String) (v : PVal) : ∀ (rec : List (String × PVal)),
    lookupPV k rec = some v → rec.any (fun kv => kv.1 = k) = true
  | [] => by simp [lookupPV]
  | a :: l => by
    intro h
    rw [lookupPV_cons] at h
    by_cases h2 : a.1 = k
    · simp [h2]
    · rw [if_neg h2] at h
      simp [h2, lookupPV_any k v l h]

theorem setKey_of_not_mem (k : String) (v : PVal) : ∀ (rec : List (String × PVal)),
    (∀ kv ∈ rec, kv.1 ≠ k) → setKey rec k v = rec
  | [], _ => rfl
  | a :: l, h => by
    have ha : a.1 ≠ k := h a (by simp)
    rw [setKey_cons, if_neg ha, setKey_of_not_mem k v l (fun kv hm => h kv (by simp [hm]))]

theorem setKey_lookup_self (k : String) (v : PVal) : ∀ (rec : List (String × PVal)),
    (rec.map Prod.fst).Nodup → lookupPV k rec = some v → setKey rec k v = rec
  | [], _, h => by simp [lookupPV] at h
  | a :: l, hnd, h => by
    simp only [List.map_cons, List.nodup_cons] at hnd
    rw [lookupPV_cons] at h
    rw [setKey_cons]
    by_cases h2 : a.1 = k
    · rw [if_pos h2] at h
      rw [if_pos h2]
      have hl : setKey l k v = l := by
        refine setKey_of_not_mem k v l ?_
        intro kv hm hk
        have hmem : kv.1 ∈ List.map Prod.fst l := List.mem_map_of_mem Prod.fst hm
        rw [hk, ← h2] at hmem
        exact hnd.1 hmem
      have h3 : (a.1, v) = a := by
        obtain ⟨a1, a2⟩ := a
        simp only [Option.some.injEq] at h
        rw [← h]
      rw [hl, h3]
    · rw [if_neg h2] at h
      rw [if_neg h2, setKey_lookup_self k v l hnd.2 h]

theorem setNameDefault_id (rec : List (String × PVal)) (v : PVal)
    (hnd : (rec.map Prod.fst).Nodup) (h : lookupPV "name" rec = some v) :
    setNameDefault rec = rec := by
  rw [setNameDefault, if_pos (by simpa using lookupPV_any "name" v rec h), h]
  exact setKey_lookup_self "name" v rec hnd h

theorem keys_asPVal : ∀ (rec : List (String × Cell)),
    (asPVal rec).map Prod.fst = rec.map Prod.fst
  | [] => rfl
  | a :: l => by rw [asPVal_cons, List.map_cons, List.map_cons, keys_asPVal l]

theorem setKey_asPVal (k : String) (v : PVal) : ∀ (rec : List (String × Cell)),
    setKey (asPVal rec) k v
      = rec.map fun kv => (kv.1, if kv.1 = k then v else PVal.cell kv.2)
  | [] => rfl
  | a :: l => by
    rw [asPVal_cons, setKey_cons, List.map_cons, setKey_asPVal k v l]
    by_cases h : a.1 = k
    · rw [if_pos h, if_pos h]
    · rw [if_neg h, if_neg h]

theorem jsonDumps_ne_empty (l : List String) : jsonDumps l ≠ "" := by
  intro h
  have h2 := congrArg String.data h
  simp [jsonDumps] at h2

theorem transform_eq_of_str (rec : List (String × Cell)) (s : String)
    (h : lookupKey "items" rec = some (.str s)) :
    transform_order_record rec =
      (if s = "" then setNameDefault (setKey (asPVal rec) "items" (.json (.arr [])))
       else
         match jsonParse s with
         | some j => setNameDefault (setKey (asPVal rec) "items" (.json j))
         | none => setKey (asPVal rec) "items" (.json (.arr []))) := by
  simp only [transform_order_record]
  rw [h]

theorem transform_eq_num (rec : List (String × Cell)) (q : Rat)
    (h : lookupKey "items" rec = some (.num q)) :
    transform_order_record rec
      = setNameDefault (setKey (asPVal rec) "items" (.json (.arr []))) := by
  simp only [transform_order_record]
  rw [h]

theorem transform_eq_missing (rec : List (String × Cell))
    (h : lookupKey "items" rec = none) :
    transform_order_record rec
      = setNameDefault (setKey (asPVal rec) "items" (.json (.arr []))) := by
  simp only [transform_order_record]
  rw [h]

theorem setNameDefault_setKey_id (rec : List (String × Cell)) (v : PVal) (c : Cell)
    (hnd : (rec.map Prod.fst).Nodup) (hname : lookupKey "name" rec = some c) :
    setNameDefault (setKey (asPVal rec) "items" v) = setKey (asPVal rec) "items" v := by
  refine setNameDefault_id _ (.cell c) ?_ ?_
  · rw [keys_setKey, keys_asPVal]
    exact hnd
  · rw [lookupPV_setKey_ne "name" "items" v (by decide), lookupPV_asPVal, hname]
    rfl

/-- Claim C8: listing orders on a well-formed table decodes each record's
items cell from JSON and never errors; a cell holding the dump of a string
list decodes back to that list of strings, while a malformed-JSON cell (or
an empty or non-string cell) yields `items = []` with every other field of
the record intact. -/
theorem claim_C8 :
    (∀ (fault : Nat → Bool) (data : List Row),
      get_orders fault (strs ordersColumns :: data)
        = (.ok ((get_all_records (strs ordersColumns :: data)).map
            transform_order_record),
           strs ordersColumns :: data)) ∧
    (∀ (rec : List (String × Cell)) (s : String),
      lookupKey "items" rec = some (.str s) → s ≠ "" → jsonParse s = none →
      transform_order_record rec
        = rec.map fun kv =>
            (kv.1, if kv.1 = "items" then PVal.json (.arr []) else PVal.cell kv.2)) ∧
    (∀ (rec : List (String × Cell)) (l : List String) (c : Cell),
      (rec.map Prod.fst).Nodup → lookupKey "name" rec = some c →
      lookupKey "items" rec = some (.str (jsonDumps l)) →
      (∀ x ∈ l, SimpleStr x = true) →
      transform_order_record rec
        = rec.map fun kv =>
            (kv.1, if kv.1 = "items" then PVal.json (.arr (l.map .str))
             else PVal.cell kv.2)) ∧
    (∀ (rec : List (String × Cell)) (c : Cell),
      (rec.map Prod.fst).Nodup → lookupKey "name" rec = some c →
      (lookupKey "items" rec = some (.str "") ∨
        (∃ q, lookupKey "items" rec = some (.num q)) ∨
        lookupKey "items" rec = none) →
      transform_order_record rec
        = rec.map fun kv =>
            (kv.1, if kv.1 = "items" then PVal.json (.arr []) else PVal.cell kv.2)) := by
  refine ⟨?_, ?_, ?_, ?_⟩
  · intro fault data
    cases data with
    | nil => simp [get_orders, get_all_records]
    | cons r rs => simp [get_orders]
  · intro rec s h hs hp
    rw [transform_eq_of_str rec s h, if_neg hs, hp]
    exact setKey_asPVal "items" (.json (.arr [])) rec
  · intro rec l c hnd hname h hl
    rw [transform_eq_of_str rec (jsonDumps l) h, if_neg (jsonDumps_ne_empty l),
      jsonParse_dumps l hl]
    exact (setNameDefault_setKey_id rec (.json (.arr (l.map .str))) c hnd
      hname).trans (setKey_asPVal "items" (.json (.arr (l.map .str))) rec)
  · intro rec c hnd hname h
    rcases h with h | ⟨q, h⟩ | h
    · rw [transform_eq_of_str rec "" h, if_pos rfl,
        setNameDefault_setKey_id rec (.json (.arr [])) c hnd hname]
      exact setKey_asPVal "items" (.json (.arr [])) rec
    · rw [transform_eq_num rec q h,
        setNameDefault_setKey_id rec (.json (.arr [])) c hnd hname]
      exact setKey_asPVal "items" (.json (.arr [])) rec
    · rw [transform_eq_missing rec h,
        setNameDefault_setKey_id rec (.json (.arr [])) c hnd hname]
      exact setKey_asPVal "items" (.json (.arr [])) rec

/-- Witness for C8 at the spec's own scenario: an order record whose items
cell holds the malformed JSON `[1,2` is returned with `items = []` and the
other fields intact. -/
theorem claim_C8_witness :
    lookupKey "items"
        [("id", Cell.str "o1"), ("timestamp", Cell.str "T"), ("phone", Cell.str "+1"),
         ("name", Cell.str "Bob"), ("items", Cell.str "[1,2"), ("total", Cell.num 5),
         ("special_instructions", Cell.str ""), ("status", Cell.str "New")]
      = some (Cell.str "[1,2") ∧
    ("[1,2" : String) ≠ "" ∧
    jsonParse "[1,2" = none ∧
    transform_order_record
        [("id", Cell.str "o1"), ("timestamp", Cell.str "T"), ("phone", Cell.str "+1"),
         ("name", Cell.str "Bob"), ("items", Cell.str "[1,2"), ("total", Cell.num 5),
         ("special_instructions", Cell.str ""), ("status", Cell.str "New")]
      = List.map (fun kv =>
          (kv.1, if kv.1 = "items" then PVal.json (.arr []) else PVal.cell kv.2))
        [("id", Cell.str "o1"), ("timestamp", Cell.str "T"), ("phone", Cell.str "+1"),
         ("name", Cell.str "Bob"), ("items", Cell.str "[1,2"), ("total", Cell.num 5),
         ("special_instructions", Cell.str ""), ("status", Cell.str "New")] :=
  ⟨rfl, by decide, rfl,
   claim_C8.2.1
     [("id", Cell.str "o1"), ("timestamp", Cell.str "T"), ("phone", Cell.str "+1"),
      ("name", Cell.str "Bob"), ("items", Cell.str "[1,2"), ("total", Cell.num 5),
      ("special_instructions", Cell.str ""), ("status", Cell.str "New")]
     "[1,2" rfl (by decide) rfl⟩
